import Mathlib

/-!
Shallow embedding of the vmpro-minitracker data pipeline core:
the TTL cache (src/services/cache_manager.py), the circuit breaker and
rate limiter (src/services/service_manager.py), the fallback generator
(src/services/fallback_data_service.py), the live fetch path
(src/services/optimized_stock_service.py), the orchestrator
(src/services/service_orchestrator.py) and the Stock model
(src/models/stock.py).

Python floats are modelled as rationals (ℚ); Python `round(x, 2)`
(round-half-to-even) is modelled exactly on ℚ.  Wall-clock time
(`time.time()`, `datetime.now()`) is passed in explicitly as a rational
`now` parameter.  Python dicts holding quote data are modelled by the
`Quote` structure whose fields are `Option`s (a `none` field models an
absent key).  `random.uniform` / `random.randint` draws are passed in as
explicit parameters (the `Draws` structure).
-/

/-- Round-half-to-even to the nearest integer, as Python's builtin
`round` does on its argument. -/
def roundHalfEven (x : ℚ) : ℤ :=
  let f : ℤ := ⌊x⌋
  let frac : ℚ := x - f
  if frac < 1/2 then f
  else if 1/2 < frac then f + 1
  else if f % 2 = 0 then f else f + 1

/-- Python `round(x, 2)`: round to two decimal places, ties to even. -/
def round2 (x : ℚ) : ℚ := (roundHalfEven (x * 100) : ℚ) / 100

/-- One record's worth of random draws (`random.uniform` /
`random.randint` results) consumed by the fallback generator:
base price, change percent, market cap, volume, the `sma_5` multiplier,
volatility, and rank. -/
structure Draws where
  bp : ℚ
  cp : ℚ
  mc : ℤ
  vol : ℤ
  sm : ℚ
  vy : ℚ
  rk : ℤ
  deriving DecidableEq, Repr

/-- A quote record: a Python dict whose possible keys are modelled as
optional fields.  A `none` field models an absent dict key. -/
structure Quote where
  symbol : Option String := none
  name : Option String := none
  price : Option ℚ := none
  previous_close : Option ℚ := none
  change_amount : Option ℚ := none
  change_percent : Option ℚ := none
  market_cap : Option ℤ := none
  volume : Option ℤ := none
  sma_5 : Option ℚ := none
  volatility : Option ℚ := none
  currency : Option String := none
  exchange : Option String := none
  sector : Option String := none
  industry : Option String := none
  rank : Option ℤ := none
  is_gaining : Option Bool := none
  is_sample_data : Option Bool := none
  deriving DecidableEq, Repr

namespace FallbackDataService

/-- `company_names` table of `get_sample_stock_data`. -/
def company_names : List (String × String) :=
  [("AAPL", "Apple Inc."), ("MSFT", "Microsoft Corporation"),
   ("GOOGL", "Alphabet Inc."), ("AMZN", "Amazon.com Inc."),
   ("TSLA", "Tesla Inc."), ("NVDA", "NVIDIA Corporation"),
   ("META", "Meta Platforms Inc."), ("NFLX", "Netflix Inc."),
   ("V", "Visa Inc."), ("JPM", "JPMorgan Chase & Co."),
   ("UNH", "UnitedHealth Group Inc."), ("HD", "The Home Depot Inc."),
   ("PG", "Procter & Gamble Co."), ("JNJ", "Johnson & Johnson"),
   ("MA", "Mastercard Inc."), ("VALE3.SA", "Vale S.A."),
   ("PETR4.SA", "Petroleo Brasileiro S.A."),
   ("ITUB4.SA", "Itau Unibanco Holding S.A."),
   ("BBDC4.SA", "Banco Bradesco S.A."), ("ABEV3.SA", "Ambev S.A."),
   ("WEGE3.SA", "WEG S.A."), ("RENT3.SA", "Localiza Rent a Car S.A."),
   ("MGLU3.SA", "Magazine Luiza S.A."), ("B3SA3.SA", "B3 S.A."),
   ("SUZB3.SA", "Suzano S.A.")]

/-- `crypto_names` table of `get_sample_crypto_data`. -/
def crypto_names : List (String × String) :=
  [("BTC", "Bitcoin"), ("ETH", "Ethereum"), ("BNB", "BNB"),
   ("XRP", "XRP"), ("ADA", "Cardano"), ("SOL", "Solana"),
   ("DOGE", "Dogecoin"), ("MATIC", "Polygon"), ("DOT", "Polkadot"),
   ("AVAX", "Avalanche"), ("LINK", "Chainlink"), ("UNI", "Uniswap"),
   ("LTC", "Litecoin"), ("ATOM", "Cosmos"), ("FIL", "Filecoin")]

/-- The raw (pre-rounding) `change_amount` computed by
`get_sample_stock_data`: `change_amount = base_price * (change_percent / 100)`.
Note it is a fraction of the base price, not of the previous close. -/
def sampleChangeAmountRaw (r : Draws) : ℚ := r.bp * (r.cp / 100)

/-- `FallbackDataService.get_sample_stock_data` (fallback_data_service.py
lines 12-66), with the `random.uniform`/`random.randint` draws passed in
as `r`; `last_updated` (a wall-clock ISO string) is not modelled. -/
def get_sample_stock_data (symbol : String) (r : Draws) : Quote :=
  let su := symbol.toUpper
  { symbol := some su
    name := some ((company_names.lookup su).getD (su ++ " Corporation"))
    price := some (round2 r.bp)
    previous_close := some (round2 (r.bp - sampleChangeAmountRaw r))
    change_amount := some (round2 (sampleChangeAmountRaw r))
    change_percent := some (round2 r.cp)
    market_cap := some r.mc
    volume := some r.vol
    sma_5 := some (round2 (r.bp * r.sm))
    volatility := some (round2 r.vy)
    currency := some (if symbol.endsWith ".SA" then "BRL" else "USD")
    exchange := some (if symbol.endsWith ".SA" then "BOVESPA" else "NYSE")
    sector := some "Technology"
    industry := some "Software"
    is_sample_data := some true }

/-- `FallbackDataService.get_sample_crypto_data` (fallback_data_service.py
lines 68-105). -/
def get_sample_crypto_data (symbol : String) (r : Draws) : Quote :=
  let su := symbol.toUpper
  { symbol := some su
    name := some ((crypto_names.lookup su).getD (su ++ " Token"))
    price := some (round2 r.bp)
    change_percent := some (round2 r.cp)
    change_amount := some (round2 (r.bp * (r.cp / 100)))
    market_cap := some r.mc
    volume := some r.vol
    rank := some r.rk
    is_sample_data := some true }

end FallbackDataService

/-- Python list slice `l[:n]`: for nonnegative `n` the first `n`
elements, for negative `n` all but the last `-n` elements. -/
def pySlice {α : Type} (l : List α) (n : ℤ) : List α :=
  if 0 ≤ n then l.take n.toNat else l.take (l.length - (-n).toNat)

/-- The `while len(symbols) < limit: symbols.append(f'{pre}{len(symbols)}')`
padding loop of the trending generators: appends `pre ++ toString k` for
`k = base.length, base.length+1, ...` until the length reaches `limit`. -/
def padSymbols (base : List String) (pre : String) (limit : ℤ) : List String :=
  base ++ (List.range' base.length (limit - base.length).toNat).map
    (fun k => pre ++ toString k)

/-- Insert into a list sorted descending by `key` (helper for
`sortDescBy`). -/
def insertDescBy {α : Type} (key : α → ℚ) (q : α) : List α → List α
  | [] => [q]
  | p :: ps => if key p < key q then q :: p :: ps else p :: insertDescBy key q ps

/-- Python `list.sort(key=key, reverse=True)`: sort descending by `key`
(insertion sort; the claims settled here are insensitive to the order of
tied elements, which is the only point where this differs from Python's
stable sort). -/
def sortDescBy {α : Type} (key : α → ℚ) : List α → List α
  | [] => []
  | q :: qs => insertDescBy key q (sortDescBy key qs)

namespace FallbackDataService

/-- The positivity adjustment applied to each trending record:
`d['change_percent'] = abs(...)`, `d['change_amount'] = abs(...)`. -/
def forcePositive (d : Quote) : Quote :=
  { d with change_percent := d.change_percent.map abs
           change_amount := d.change_amount.map abs }

/-- `FallbackDataService.get_sample_trending_stocks`
(fallback_data_service.py lines 107-129); `rng i` supplies the random
draws of the `i`-th generated record. -/
def get_sample_trending_stocks (region : String) (limit : ℤ)
    (rng : ℕ → Draws) : List Quote :=
  let symbols := if region.toUpper = "BR" then
      ["VALE3.SA", "PETR4.SA", "ITUB4.SA", "BBDC4.SA", "ABEV3.SA"]
    else
      ["AAPL", "MSFT", "GOOGL", "AMZN", "TSLA"]
  let symbols := padSymbols symbols "STOCK" limit
  let stocks := (pySlice symbols limit).enum.map
    (fun p => forcePositive (get_sample_stock_data p.2 (rng p.1)))
  sortDescBy (fun q => q.change_percent.getD 0) stocks

/-- `FallbackDataService.get_sample_trending_cryptos`
(fallback_data_service.py lines 131-158). -/
def get_sample_trending_cryptos (limit : ℤ) (order_by : String)
    (rng : ℕ → Draws) : List Quote :=
  let symbols := ["BTC", "ETH", "BNB", "XRP", "ADA",
                  "SOL", "DOGE", "MATIC", "DOT", "AVAX"]
  let symbols := padSymbols symbols "COIN" limit
  let cryptos := (pySlice symbols limit).enum.map
    (fun p => forcePositive (get_sample_crypto_data p.2 (rng p.1)))
  if order_by = "market_cap" then
    sortDescBy (fun q => ((q.market_cap.getD 0 : ℤ) : ℚ)) cryptos
  else if order_by = "volume" then
    sortDescBy (fun q => ((q.volume.getD 0 : ℤ) : ℚ)) cryptos
  else if order_by = "price" then
    sortDescBy (fun q => q.price.getD 0) cryptos
  else
    sortDescBy (fun q => q.change_percent.getD 0) cryptos

end FallbackDataService

/-- The `ticker.info` metadata consumed by `_fetch_single_stock`
(each field optional: `info.get(...)`). -/
structure FetchInfo where
  longName : Option String := none
  shortName : Option String := none
  marketCap : Option ℤ := none
  currency : Option String := none
  exchange : Option String := none
  sector : Option String := none
  industry : Option String := none
  deriving DecidableEq, Repr

namespace OptimizedStockService

/-- `pd.Series(prices).rolling(window=min(5, len(prices))).mean().iloc[-1]`:
the mean of the last `min 5 n` closes. -/
def meanLast (closes : List ℚ) : ℚ :=
  let k := min 5 closes.length
  ((closes.drop (closes.length - k)).sum) / (k : ℚ)

/-- `OptimizedStockService._fetch_single_stock`
(optimized_stock_service.py lines 86-164).  `closes`/`volumes` are the
history columns; `stdPct` is the (possibly irrational, hence
parameterised) `pct_change().std()` aggregate, used only when more than
one close exists; `last_updated` (wall-clock ISO string) is not
modelled.  Returns `none` when the history is empty, mirroring the
`hist.empty` early return; the dict built at lines 142-160 carries
neither an `is_gaining` nor an `is_sample_data` key (both `none`). -/
def _fetch_single_stock (symbol : String) (info : FetchInfo)
    (closes : List ℚ) (volumes : List ℤ) (stdPct : ℚ) : Option Quote :=
  match closes.getLast? with
  | none => none
  | some current =>
    let previous_close :=
      if 1 < closes.length then closes.getD (closes.length - 2) current
      else current
    let current_volume := volumes.getLast?.getD 0
    let volatility := if 1 < closes.length then stdPct * 100 else 0
    let change_percent :=
      if 0 < previous_close then
        (current - previous_close) / previous_close * 100
      else 0
    let change_amount := current - previous_close
    some { symbol := some symbol.toUpper
           name := some (info.longName.getD (info.shortName.getD symbol.toUpper))
           price := some (round2 current)
           previous_close := some (round2 previous_close)
           change_amount := some (round2 change_amount)
           change_percent := some (round2 change_percent)
           market_cap := info.marketCap
           volume := some current_volume
           sma_5 := some (round2 (meanLast closes))
           volatility := some (round2 volatility)
           currency := some (info.currency.getD "USD")
           exchange := some (info.exchange.getD "")
           sector := some (info.sector.getD "")
           industry := some (info.industry.getD "") }

end OptimizedStockService

/-- The `Stock` dataclass of src/models/stock.py (fields;
`last_updated` not modelled). -/
structure Stock where
  symbol : String
  name : String
  price : ℚ
  previous_close : ℚ
  market_cap : Option ℚ := none
  volume : Option ℤ := none
  change_percent : Option ℚ := none
  deriving DecidableEq, Repr

/-- Constructing a `Stock` runs `__post_init__`: when `change_percent`
was not given and `previous_close > 0` it is derived as
`(price - previous_close) / previous_close * 100`. -/
def Stock.make (symbol name : String) (price previous_close : ℚ)
    (market_cap : Option ℚ := none) (volume : Option ℤ := none)
    (change_percent : Option ℚ := none) : Stock :=
  { symbol, name, price, previous_close, market_cap, volume
    change_percent :=
      if change_percent = none ∧ 0 < previous_close then
        some ((price - previous_close) / previous_close * 100)
      else change_percent }

/-- `Stock.change_amount` property: `price - previous_close`. -/
def Stock.change_amount (s : Stock) : ℚ := s.price - s.previous_close

/-- `Stock.is_gaining` property: `change_amount > 0`. -/
def Stock.is_gaining (s : Stock) : Bool := decide (0 < s.change_amount)

/-- Python dict assignment `d[k] = v` on an association list: update in
place when the key exists, else append. -/
def updAssoc {β : Type} (l : List (String × β)) (k : String) (v : β) :
    List (String × β) :=
  if (l.lookup k).isSome then
    l.map (fun p => if p.1 = k then (k, v) else p)
  else l ++ [(k, v)]

namespace CacheManager

/-- A cache entry: the dict stored at cache_manager.py lines 81-86. -/
structure Item (α : Type) where
  data : α
  timestamp : ℚ
  ttl : ℚ
  category : String
  deriving DecidableEq, Repr

/-- The mutable state of a `CacheManager` (cache_manager.py lines
19-29); the per-category `stats` dict is not modelled (no claim reads
it). -/
structure State (α : Type) where
  max_size : ℕ
  default_ttl : ℚ
  cache : List (String × Item α)
  access_times : List (String × ℚ)
  hit_count : ℕ
  miss_count : ℕ
  deriving DecidableEq, Repr

/-- A freshly constructed `CacheManager(max_size, default_ttl)`. -/
def State.empty (α : Type) (max_size : ℕ) (default_ttl : ℚ) : State α :=
  ⟨max_size, default_ttl, [], [], 0, 0⟩

/-- `full_key = f'{category}:{key}'`. -/
def full_key (category key : String) : String := category ++ ":" ++ key

/-- `CacheManager._remove_item` (lines 158-164): delete the key from
both the entry map and the access-time map. -/
def _remove_item {α : Type} (s : State α) (fk : String) : State α :=
  { s with cache := s.cache.filter (fun p => p.1 ≠ fk)
           access_times := s.access_times.filter (fun p => p.1 ≠ fk) }

/-- `min(access_times.items(), key=lambda x: x[1])`: first pair
attaining the minimal timestamp (Python `min` keeps the earliest of
tied items). -/
def minByTime (l : List (String × ℚ)) : Option (String × ℚ) :=
  match l with
  | [] => none
  | p :: ps => some (ps.foldl (fun best q => if q.2 < best.2 then q else best) p)

/-- `CacheManager._evict_least_recently_used` (lines 166-181). -/
def _evict_least_recently_used {α : Type} (s : State α) : State α :=
  match minByTime s.access_times with
  | none => s
  | some p => _remove_item s p.1

/-- `CacheManager.get` (lines 38-58): returns the value and the updated
state. -/
def get {α : Type} (s : State α) (now : ℚ) (key : String)
    (category : String) : Option α × State α :=
  let fk := full_key category key
  match s.cache.lookup fk with
  | some item =>
    if now - item.timestamp < item.ttl then
      (some item.data,
       { s with access_times := updAssoc s.access_times fk now
                hit_count := s.hit_count + 1 })
    else
      let s := _remove_item s fk
      (none, { s with miss_count := s.miss_count + 1 })
  | none => (none, { s with miss_count := s.miss_count + 1 })

/-- `ttl = ttl or self.default_ttl` (line 70): Python `or` replaces a
`None` **or zero** ttl by the default (`0` is falsy); any nonzero value,
negative included, is kept. -/
def resolveTtl (ttl : Option ℚ) (default_ttl : ℚ) : ℚ :=
  match ttl with
  | none => default_ttl
  | some t => if t = 0 then default_ttl else t

/-- `CacheManager.set` (lines 60-88). -/
def set {α : Type} (s : State α) (now : ℚ) (key : String) (data : α)
    (category : String) (ttl : Option ℚ) : State α :=
  let fk := full_key category key
  let t := resolveTtl ttl s.default_ttl
  let s := if (s.cache.lookup fk).isSome then _remove_item s fk else s
  let s := if s.max_size ≤ s.cache.length then _evict_least_recently_used s
           else s
  { s with cache := s.cache ++ [(fk, ⟨data, now, t, category⟩)]
           access_times := updAssoc s.access_times fk now }

/-- One `set` call's arguments (call time, key, payload, category,
ttl argument). -/
structure SetOp (α : Type) where
  now : ℚ
  key : String
  data : α
  category : String
  ttl : Option ℚ

/-- A sequence of `set` calls applied in order. -/
def applySets {α : Type} (s : State α) (ops : List (SetOp α)) : State α :=
  ops.foldl (fun s op => set s op.now op.key op.data op.category op.ttl) s

end CacheManager

namespace MemoryRateLimiter

/-- `MemoryRateLimiter.is_allowed` (service_manager.py lines 73-89):
`st` is the `self.requests` dict (per-key accepted timestamps), `now`
the value of `time.time()` at the call.  Returns the decision and the
updated dict: old timestamps are pruned; the call is admitted and `now`
recorded iff fewer than `limit` remain. -/
def is_allowed (st : List (String × List ℚ)) (key : String) (limit : ℕ)
    (window : ℚ) (now : ℚ) : Bool × List (String × List ℚ) :=
  let times := (st.lookup key).getD []
  let pruned := times.filter (fun t => now - t < window)
  if pruned.length < limit then
    (true, updAssoc st key (pruned ++ [now]))
  else
    (false, updAssoc st key pruned)

/-- A sequence of `is_allowed` calls for one key: returns the decisions
in order and the final state. -/
def runCalls (st : List (String × List ℚ)) (key : String) (limit : ℕ)
    (window : ℚ) : List ℚ → List Bool × List (String × List ℚ)
  | [] => ([], st)
  | now :: rest =>
    let (b, st) := is_allowed st key limit window now
    let (bs, st) := runCalls st key limit window rest
    (b :: bs, st)

end MemoryRateLimiter

namespace ServiceManager

/-- Circuit-breaker states (`"closed"`, `"open"`, `"half_open"`). -/
inductive CBState
  | closed
  | cbOpen
  | halfOpen
  deriving DecidableEq, Repr

/-- The per-service circuit dict (service_manager.py lines 245-251). -/
structure Circuit where
  state : CBState
  failure_count : ℕ
  last_failure_time : Option ℚ
  failure_threshold : ℕ
  timeout : ℚ
  deriving DecidableEq, Repr

/-- The default circuit dict: closed, no failures, threshold 5,
timeout 60s. -/
def defaultCircuit : Circuit := ⟨.closed, 0, none, 5, 60⟩

/-- `ServiceMetrics` (service_manager.py lines 18-26); the `status`
field is never written by the breaker path and is not modelled. -/
structure ServiceMetrics where
  total_requests : ℕ
  successful_requests : ℕ
  failed_requests : ℕ
  avg_response_time : ℚ
  last_request_time : Option ℚ
  deriving DecidableEq, Repr

/-- A freshly constructed `ServiceMetrics()`. -/
def ServiceMetrics.init : ServiceMetrics := ⟨0, 0, 0, 0, none⟩

/-- `ServiceManager._update_metrics` (lines 291-308). -/
def _update_metrics (m : ServiceMetrics) (success : Bool)
    (execution_time : ℚ) (now : ℚ) : ServiceMetrics :=
  let m := { m with total_requests := m.total_requests + 1
                    last_request_time := some now }
  if success then
    { m with successful_requests := m.successful_requests + 1
             avg_response_time :=
               if m.avg_response_time = 0 then execution_time
               else (m.avg_response_time + execution_time) / 2 }
  else
    { m with failed_requests := m.failed_requests + 1 }

/-- How one call through the breaker ended. -/
inductive CBResult
  | rejected
  | succeeded
  | failed
  | typeError
  deriving DecidableEq, Repr

/-- Result of one `_execute_with_circuit_breaker` call: updated circuit,
updated metrics, how the call ended, and whether the wrapped operation
was invoked at all. -/
structure CBOutcome where
  circuit : Circuit
  metrics : ServiceMetrics
  result : CBResult
  invoked : Bool
  deriving DecidableEq, Repr

/-- The `try` block of `_execute_with_circuit_breaker` (lines 261-289):
the operation is invoked; on success a half-open circuit closes and the
metrics record a success with its timing; on failure the failure count
and `last_failure_time` are updated, the circuit opens iff the count
reaches the threshold, and the metrics record a failure with timing 0. -/
def runOperation (c : Circuit) (m : ServiceMetrics) (now : ℚ)
    (opSucceeds : Bool) (execution_time : ℚ) : CBOutcome :=
  if opSucceeds then
    let c := if c.state = .halfOpen then
        { c with state := .closed, failure_count := 0 }
      else c
    ⟨c, _update_metrics m true execution_time now, .succeeded, true⟩
  else
    let fc := c.failure_count + 1
    let c := { c with failure_count := fc
                      last_failure_time := some now
                      state := if c.failure_threshold ≤ fc then .cbOpen
                               else c.state }
    ⟨c, _update_metrics m false 0 now, .failed, true⟩

/-- `ServiceManager._execute_with_circuit_breaker` (service_manager.py
lines 243-289) for one call: `now` is the wall clock at the call,
`opSucceeds` whether `await operation(...)` returns (vs raises) and
`execution_time` its elapsed time.  `.rejected` models the `raise` at
line 259: the operation is not invoked and the metrics are untouched.
`.typeError` models the `TypeError` Python raises on
`time.time() - None`; it is unreachable from states the code produces
(`state = open` implies `last_failure_time` was set). -/
def _execute_with_circuit_breaker (c : Circuit) (m : ServiceMetrics)
    (now : ℚ) (opSucceeds : Bool) (execution_time : ℚ) : CBOutcome :=
  if c.state = .cbOpen then
    match c.last_failure_time with
    | none => ⟨c, m, .typeError, false⟩
    | some lf =>
      if c.timeout < now - lf then
        runOperation { c with state := .halfOpen, failure_count := 0 } m now
          opSucceeds execution_time
      else
        ⟨c, m, .rejected, false⟩
  else
    runOperation c m now opSucceeds execution_time

end ServiceManager

namespace ServiceOrchestrator

/-- A value stored in or returned from the orchestrator's cache: either
a single quote dict or a list of quote dicts. -/
inductive Payload
  | q (d : Quote)
  | list (l : List Quote)
  deriving DecidableEq, Repr

/-- Python truthiness of a cached payload (`if cached_data:`): a quote
dict built by this code base is a nonempty dict, hence truthy; a list is
truthy iff nonempty. -/
def pyTruthy : Payload → Bool
  | .q _ => true
  | .list l => !l.isEmpty

/-- The orchestrator's `self.metrics` dict (service_orchestrator.py
lines 35-40). -/
structure Metrics where
  requests_count : ℕ
  cache_hits : ℕ
  fallback_used : ℕ
  errors : ℕ
  deriving DecidableEq, Repr

/-- Freshly constructed orchestrator metrics. -/
def Metrics.init : Metrics := ⟨0, 0, 0, 0⟩

/-- Result of one orchestrator operation: the returned value, the cache
manager state afterwards, and the metrics afterwards. -/
structure Out where
  result : Payload
  cache : CacheManager.State Payload
  metrics : Metrics
  deriving DecidableEq, Repr

/-- The data-quality filter of the trending paths (lines 106 and 178):
`[item for item in data if item and item.get('price') and
item.get('symbol')]` — the item must be a (truthy) dict whose `price`
key holds a truthy (nonzero) number and whose `symbol` key holds a
nonempty string. -/
def validQuote (oi : Option Quote) : Bool :=
  match oi with
  | none => false
  | some i =>
    (match i.price with | some p => decide (p ≠ 0) | none => false) &&
    (match i.symbol with | some s => decide (s ≠ "") | none => false)

/-- `ServiceOrchestrator.get_stock_data` (service_orchestrator.py lines
53-85).  `provider` is the behaviour of
`self.stock_service.get_stock_data(symbol)`: `.error` models it raising,
`.ok none` a falsy (no-data) return, `.ok (some d)` a data dict.  `r`
supplies the random draws of a fallback record if one is generated. -/
def get_stock_data (st : CacheManager.State Payload) (m : Metrics)
    (now : ℚ) (symbol : String) (provider : Except Unit (Option Quote))
    (r : Draws) : Out :=
  let m := { m with requests_count := m.requests_count + 1 }
  let cache_key := "stock_" ++ symbol.toUpper
  let (cached, st) := CacheManager.get st now cache_key "stocks"
  let fetchPath : CacheManager.State Payload → Metrics → Out := fun st m =>
    match provider with
    | .error _ =>
      ⟨.q (FallbackDataService.get_sample_stock_data symbol r), st,
       { m with errors := m.errors + 1 }⟩
    | .ok none =>
      ⟨.q (FallbackDataService.get_sample_stock_data symbol r), st,
       { m with fallback_used := m.fallback_used + 1 }⟩
    | .ok (some d) =>
      ⟨.q d, CacheManager.set st now cache_key (.q d) "stocks" (some 900), m⟩
  match cached with
  | some pl =>
    if pyTruthy pl then ⟨pl, st, { m with cache_hits := m.cache_hits + 1 }⟩
    else fetchPath st m
  | none => fetchPath st m

/-- `ServiceOrchestrator.get_crypto_data` (lines 126-157); same shape as
the stock path with category `'crypto'` and ttl 600. -/
def get_crypto_data (st : CacheManager.State Payload) (m : Metrics)
    (now : ℚ) (symbol : String) (provider : Except Unit (Option Quote))
    (r : Draws) : Out :=
  let m := { m with requests_count := m.requests_count + 1 }
  let cache_key := "crypto_" ++ symbol.toUpper
  let (cached, st) := CacheManager.get st now cache_key "crypto"
  let fetchPath : CacheManager.State Payload → Metrics → Out := fun st m =>
    match provider with
    | .error _ =>
      ⟨.q (FallbackDataService.get_sample_crypto_data symbol r), st,
       { m with errors := m.errors + 1 }⟩
    | .ok none =>
      ⟨.q (FallbackDataService.get_sample_crypto_data symbol r), st,
       { m with fallback_used := m.fallback_used + 1 }⟩
    | .ok (some d) =>
      ⟨.q d, CacheManager.set st now cache_key (.q d) "crypto" (some 600), m⟩
  match cached with
  | some pl =>
    if pyTruthy pl then ⟨pl, st, { m with cache_hits := m.cache_hits + 1 }⟩
    else fetchPath st m
  | none => fetchPath st m

/-- `ServiceOrchestrator.get_trending_stocks` (lines 87-122).
`provider` models `self.stock_service.get_trending_stocks(...)`: a raised
exception or a list of items (each possibly `None`). -/
def get_trending_stocks (st : CacheManager.State Payload) (m : Metrics)
    (now : ℚ) (limit : ℤ) (region : String)
    (provider : Except Unit (List (Option Quote))) (rng : ℕ → Draws) : Out :=
  let m := { m with requests_count := m.requests_count + 1 }
  let cache_key := "trending_stocks_" ++ region ++ "_" ++ toString limit
  let (cached, st) := CacheManager.get st now cache_key "trending"
  let fetchPath : CacheManager.State Payload → Metrics → Out := fun st m =>
    match provider with
    | .error _ =>
      ⟨.list (FallbackDataService.get_sample_trending_stocks region limit rng),
       st, { m with errors := m.errors + 1 }⟩
    | .ok data =>
      let valid_data := data.filterMap
        (fun oi => if validQuote oi then oi else none)
      if limit.fdiv 2 ≤ (valid_data.length : ℤ) then
        ⟨.list valid_data,
         CacheManager.set st now cache_key (.list valid_data) "trending"
           (some 600), m⟩
      else
        ⟨.list (FallbackDataService.get_sample_trending_stocks region limit rng),
         st, { m with fallback_used := m.fallback_used + 1 }⟩
  match cached with
  | some pl =>
    if pyTruthy pl then ⟨pl, st, { m with cache_hits := m.cache_hits + 1 }⟩
    else fetchPath st m
  | none => fetchPath st m

/-- `ServiceOrchestrator.get_trending_cryptos` (lines 159-194). -/
def get_trending_cryptos (st : CacheManager.State Payload) (m : Metrics)
    (now : ℚ) (limit : ℤ) (order_by : String)
    (provider : Except Unit (List (Option Quote))) (rng : ℕ → Draws) : Out :=
  let m := { m with requests_count := m.requests_count + 1 }
  let cache_key := "trending_crypto_" ++ order_by ++ "_" ++ toString limit
  let (cached, st) := CacheManager.get st now cache_key "trending"
  let fetchPath : CacheManager.State Payload → Metrics → Out := fun st m =>
    match provider with
    | .error _ =>
      ⟨.list (FallbackDataService.get_sample_trending_cryptos limit order_by rng),
       st, { m with errors := m.errors + 1 }⟩
    | .ok data =>
      let valid_data := data.filterMap
        (fun oi => if validQuote oi then oi else none)
      if limit.fdiv 2 ≤ (valid_data.length : ℤ) then
        ⟨.list valid_data,
         CacheManager.set st now cache_key (.list valid_data) "trending"
           (some 600), m⟩
      else
        ⟨.list (FallbackDataService.get_sample_trending_cryptos limit order_by rng),
         st, { m with fallback_used := m.fallback_used + 1 }⟩
  match cached with
  | some pl =>
    if pyTruthy pl then ⟨pl, st, { m with cache_hits := m.cache_hits + 1 }⟩
    else fetchPath st m
  | none => fetchPath st m

end ServiceOrchestrator

/-! ## Theorems -/

/-- C1 (amended): with `failure_threshold = 3`, three consecutive failed
calls through the breaker transition its state from closed to open; a
call attempted while open at most `timeout` after the last failure is
rejected without invoking the operation and changes neither the circuit
nor the metrics; a call attempted strictly more than `timeout` after the
last failure is allowed through as a probe; a successful probe closes
the breaker; a **failed probe leaves the breaker half-open** (the
failure count was reset to 0 on the open→half-open transition, so the
new count 1 stays below the threshold 3) — it does not reopen it. -/
theorem circuit_breaker_transition_spec :
    (∀ (T τ₁ τ₂ τ₃ e₁ e₂ e₃ : ℚ)
       (m₁ m₂ m₃ : ServiceManager.ServiceMetrics),
      let c₀ : ServiceManager.Circuit := ⟨.closed, 0, none, 3, T⟩
      let o₁ := ServiceManager._execute_with_circuit_breaker c₀ m₁ τ₁ false e₁
      let o₂ := ServiceManager._execute_with_circuit_breaker o₁.circuit m₂ τ₂
        false e₂
      let o₃ := ServiceManager._execute_with_circuit_breaker o₂.circuit m₃ τ₃
        false e₃
      o₁.circuit.state = .closed ∧ o₂.circuit.state = .closed ∧
      o₃.circuit.state = .cbOpen ∧
      o₃.circuit.last_failure_time = some τ₃) ∧
    (∀ (c : ServiceManager.Circuit) (m : ServiceManager.ServiceMetrics)
       (now lf e : ℚ) (b : Bool),
      c.state = .cbOpen → c.last_failure_time = some lf →
      now - lf ≤ c.timeout →
      ServiceManager._execute_with_circuit_breaker c m now b e =
        ⟨c, m, .rejected, false⟩) ∧
    (∀ (c : ServiceManager.Circuit) (m : ServiceManager.ServiceMetrics)
       (now lf e : ℚ) (b : Bool),
      c.state = .cbOpen → c.last_failure_time = some lf →
      c.timeout < now - lf →
      (ServiceManager._execute_with_circuit_breaker c m now b e).invoked
        = true) ∧
    (∀ (c : ServiceManager.Circuit) (m : ServiceManager.ServiceMetrics)
       (now lf e : ℚ),
      c.state = .cbOpen → c.last_failure_time = some lf →
      c.timeout < now - lf →
      (ServiceManager._execute_with_circuit_breaker c m now true e).circuit.state
        = .closed) ∧
    (∀ (c : ServiceManager.Circuit) (m : ServiceManager.ServiceMetrics)
       (now lf e : ℚ),
      c.state = .cbOpen → c.last_failure_time = some lf →
      c.timeout < now - lf → c.failure_threshold = 3 →
      (ServiceManager._execute_with_circuit_breaker c m now false e).circuit =
        { c with state := .halfOpen, failure_count := 1,
                 last_failure_time := some now }) := by
  refine ⟨?_, ?_, ?_, ?_, ?_⟩
  · intro T τ₁ τ₂ τ₃ e₁ e₂ e₃ m₁ m₂ m₃
    exact ⟨rfl, rfl, rfl, rfl⟩
  · intro c m now lf e b hst hlf hle
    simp [ServiceManager._execute_with_circuit_breaker, hst, hlf,
      not_lt.mpr hle]
  · intro c m now lf e b hst hlf hlt
    cases b <;>
      simp [ServiceManager._execute_with_circuit_breaker, hst, hlf, hlt,
        ServiceManager.runOperation]
  · intro c m now lf e hst hlf hlt
    simp [ServiceManager._execute_with_circuit_breaker, hst, hlf, hlt,
      ServiceManager.runOperation]
  · intro c m now lf e hst hlf hlt hth
    simp [ServiceManager._execute_with_circuit_breaker, hst, hlf, hlt,
      ServiceManager.runOperation, hth]

/-- C1 counterexample: a breaker with `failure_threshold = 3` that is
open (3 failures, last at time 0, timeout 60) receives a probe at time
61 which fails: the resulting state is `half_open`, not `open` as the
claim states. -/
theorem circuit_breaker_probe_failure_not_open :
    (ServiceManager._execute_with_circuit_breaker
        ⟨.cbOpen, 3, some 0, 3, 60⟩ ServiceManager.ServiceMetrics.init
        61 false 0).circuit.state = .halfOpen ∧
    (ServiceManager.CBState.halfOpen ≠ .cbOpen) := by
  constructor
  · norm_num [ServiceManager._execute_with_circuit_breaker,
      ServiceManager.runOperation]
  · decide

/-- Witness for `circuit_breaker_transition_spec` at concrete inputs. -/
theorem circuit_breaker_transition_spec_witness :
    (ServiceManager._execute_with_circuit_breaker
        ⟨.cbOpen, 3, some 0, 3, 60⟩ ServiceManager.ServiceMetrics.init
        30 true 1 =
      ⟨⟨.cbOpen, 3, some 0, 3, 60⟩, ServiceManager.ServiceMetrics.init,
        .rejected, false⟩) ∧
    ((ServiceManager._execute_with_circuit_breaker
        ⟨.cbOpen, 3, some 0, 3, 60⟩ ServiceManager.ServiceMetrics.init
        100 false 1).invoked = true) ∧
    ((ServiceManager._execute_with_circuit_breaker
        ⟨.cbOpen, 3, some 0, 3, 60⟩ ServiceManager.ServiceMetrics.init
        100 true 1).circuit.state = .closed) ∧
    ((ServiceManager._execute_with_circuit_breaker
        ⟨.cbOpen, 3, some 0, 3, 60⟩ ServiceManager.ServiceMetrics.init
        100 false 1).circuit = ⟨.halfOpen, 1, some 100, 3, 60⟩) := by
  refine ⟨circuit_breaker_transition_spec.2.1 _ _ _ _ _ _ rfl rfl
      (by norm_num),
    circuit_breaker_transition_spec.2.2.1 _ _ _ _ _ _ rfl rfl (by norm_num),
    circuit_breaker_transition_spec.2.2.2.1 _ _ _ _ _ rfl rfl (by norm_num),
    ?_⟩
  exact circuit_breaker_transition_spec.2.2.2.2 _ _ _ _ _ rfl rfl
    (by norm_num) rfl

/-! ### Association-list helper lemmas -/

theorem lookup_eq_none_iff {β : Type} (l : List (String × β)) (k : String) :
    l.lookup k = none ↔ k ∉ l.map Prod.fst := by
  induction l with
  | nil => simp
  | cons p l ih =>
    obtain ⟨a, b⟩ := p
    by_cases h : k = a
    · subst h; simp [List.lookup]
    · simp [List.lookup, beq_false_of_ne h, h, ih]

theorem lookup_filter_of_none {β : Type} (l : List (String × β))
    (q : String × β → Bool) (k : String) (h : l.lookup k = none) :
    (l.filter q).lookup k = none := by
  rw [lookup_eq_none_iff] at h ⊢
  intro hk
  apply h
  obtain ⟨p, hp, rfl⟩ := List.mem_map.mp hk
  exact List.mem_map.mpr ⟨p, List.mem_of_mem_filter hp, rfl⟩

theorem lookup_filter_ne {β : Type} (l : List (String × β)) (k : String) :
    (l.filter (fun p => p.1 ≠ k)).lookup k = none := by
  rw [lookup_eq_none_iff]
  intro hk
  obtain ⟨p, hp, hfst⟩ := List.mem_map.mp hk
  have := List.of_mem_filter hp
  simp [hfst] at this

theorem lookup_append_of_none {β : Type} (l : List (String × β)) (k : String)
    (v : β) (h : l.lookup k = none) : (l ++ [(k, v)]).lookup k = some v := by
  induction l with
  | nil => simp [List.lookup]
  | cons p l ih =>
    obtain ⟨a, b⟩ := p
    by_cases hk : k = a
    · subst hk; simp [List.lookup] at h
    · simp only [List.lookup, beq_false_of_ne hk] at h
      simp only [List.cons_append, List.lookup, beq_false_of_ne hk]
      exact ih h

theorem lookup_map_update {β : Type} (l : List (String × β)) (k : String)
    (v : β) :
    (l.lookup k).isSome →
    (l.map (fun p => if p.1 = k then (k, v) else p)).lookup k = some v := by
  induction l with
  | nil => intro h; simp at h
  | cons p l ih =>
    obtain ⟨a, b⟩ := p
    intro h
    by_cases hk : k = a
    · subst hk
      have h1 : (fun p : String × β => if p.1 = k then (k, v) else p) (k, b)
          = (k, v) := by simp
      simp only [List.map_cons, h1]
      simp [List.lookup]
    · have ha : ¬(a = k) := fun e => hk e.symm
      have h1 : (fun p : String × β => if p.1 = k then (k, v) else p) (a, b)
          = (a, b) := by simp [ha]
      simp only [List.lookup, beq_false_of_ne hk] at h
      rw [List.map_cons, if_neg (show ¬((a, b).1 = k) from ha)]
      simp only [List.lookup, beq_false_of_ne hk]
      exact ih h

theorem lookup_updAssoc {β : Type} (l : List (String × β)) (k : String)
    (v : β) : (updAssoc l k v).lookup k = some v := by
  unfold updAssoc
  by_cases h : (l.lookup k).isSome
  · rw [if_pos h]
    exact lookup_map_update l k v h
  · rw [if_neg h]
    exact lookup_append_of_none _ _ _ (Option.not_isSome_iff_eq_none.mp h)

/-! ### Cache helper lemmas -/

theorem remove_item_lookup_self {α : Type} (s : CacheManager.State α)
    (fk : String) : (CacheManager._remove_item s fk).cache.lookup fk = none :=
  lookup_filter_ne _ _

theorem remove_item_lookup_of_none {α : Type} (s : CacheManager.State α)
    (fk fk' : String) (h : s.cache.lookup fk = none) :
    (CacheManager._remove_item s fk').cache.lookup fk = none :=
  lookup_filter_of_none _ _ _ h

theorem evict_lookup_of_none {α : Type} (s : CacheManager.State α)
    (fk : String) (h : s.cache.lookup fk = none) :
    (CacheManager._evict_least_recently_used s).cache.lookup fk = none := by
  unfold CacheManager._evict_least_recently_used
  cases CacheManager.minByTime s.access_times with
  | none => exact h
  | some p => exact remove_item_lookup_of_none _ _ _ h

theorem set_cache_lookup {α : Type} (s : CacheManager.State α) (now : ℚ)
    (k cat : String) (v : α) (ttl : Option ℚ) :
    (CacheManager.set s now k v cat ttl).cache.lookup
        (CacheManager.full_key cat k) =
      some ⟨v, now, CacheManager.resolveTtl ttl s.default_ttl, cat⟩ := by
  unfold CacheManager.set
  apply lookup_append_of_none
  by_cases h1 : ((s.cache.lookup (CacheManager.full_key cat k)).isSome)
  · rw [if_pos h1]
    by_cases h2 : ((CacheManager._remove_item s
        (CacheManager.full_key cat k)).max_size ≤
        (CacheManager._remove_item s (CacheManager.full_key cat k)).cache.length)
    · rw [if_pos h2]
      exact evict_lookup_of_none _ _ (remove_item_lookup_self _ _)
    · rw [if_neg h2]
      exact remove_item_lookup_self _ _
  · rw [if_neg h1]
    have h0 := Option.not_isSome_iff_eq_none.mp h1
    by_cases h2 : (s.max_size ≤ s.cache.length)
    · rw [if_pos h2]
      exact evict_lookup_of_none _ _ h0
    · rw [if_neg h2]
      exact h0

theorem get_of_lookup {α : Type} (s : CacheManager.State α) (now : ℚ)
    (k cat : String) (it : CacheManager.Item α)
    (h : s.cache.lookup (CacheManager.full_key cat k) = some it) :
    (CacheManager.get s now k cat).1 =
      if now - it.timestamp < it.ttl then some it.data else none := by
  unfold CacheManager.get
  simp only [h]
  by_cases hc : now - it.timestamp < it.ttl <;> simp [hc]

theorem set_then_get {α : Type} (s : CacheManager.State α) (now : ℚ)
    (k cat : String) (v : α) (ttl : Option ℚ) :
    (CacheManager.get (CacheManager.set s now k v cat ttl) now k cat).1 =
      if 0 < CacheManager.resolveTtl ttl s.default_ttl then some v
      else none := by
  rw [get_of_lookup _ _ _ _ _ (set_cache_lookup s now k cat v ttl)]
  simp only [sub_self]

/-- C2 (amended): `set(k, v, ttl=0)` does **not** expire immediately —
`ttl or default_ttl` treats `0` as falsy, so the entry is stored with
the default TTL and an immediate `get` returns the value (whenever
`default_ttl > 0`, as in every cache the program constructs).  A
strictly negative ttl, by contrast, is kept and the entry is immediately
expired: `get` reports absent. -/
theorem cache_set_ttl_zero_and_negative {α : Type}
    (s : CacheManager.State α) (now : ℚ) (k cat : String) (v : α) :
    (0 < s.default_ttl →
      (CacheManager.get (CacheManager.set s now k v cat (some 0)) now k
          cat).1 = some v) ∧
    (∀ t : ℚ, t < 0 →
      (CacheManager.get (CacheManager.set s now k v cat (some t)) now k
          cat).1 = none) := by
  constructor
  · intro hd
    rw [set_then_get]
    simp only [CacheManager.resolveTtl, if_pos rfl]
    exact if_pos hd
  · intro t ht
    rw [set_then_get]
    simp only [CacheManager.resolveTtl, if_neg (ne_of_lt ht)]
    exact if_neg (not_lt.mpr (le_of_lt ht))

/-- C2 counterexample: on a fresh cache with `default_ttl = 300`,
`set("k", 42, ttl=0)` followed by an immediate `get("k")` returns the
value `42`, not absent — the zero ttl was silently replaced by the
default. -/
theorem cache_set_ttl_zero_counterexample :
    (CacheManager.get
        (CacheManager.set (CacheManager.State.empty ℕ 1000 300) 0 "k" 42
          "default" (some 0)) 0 "k" "default").1 = some 42 ∧
    (some 42 ≠ (none : Option ℕ)) := by
  constructor
  · rw [set_then_get]
    have h : (CacheManager.State.empty ℕ 1000 300).default_ttl = 300 := rfl
    simp only [CacheManager.resolveTtl, eq_self_iff_true, if_true, h]
    norm_num
  · decide

/-- Witness for `cache_set_ttl_zero_and_negative` at concrete inputs. -/
theorem cache_set_ttl_zero_and_negative_witness :
    ((CacheManager.get
        (CacheManager.set (CacheManager.State.empty ℕ 1000 300) 0 "k" 42
          "default" (some 0)) 0 "k" "default").1 = some 42) ∧
    ((CacheManager.get
        (CacheManager.set (CacheManager.State.empty ℕ 1000 300) 0 "k" 42
          "default" (some (-5))) 0 "k" "default").1 = none) :=
  ⟨(cache_set_ttl_zero_and_negative _ _ _ _ _).1
      (by norm_num [CacheManager.State.empty]),
   (cache_set_ttl_zero_and_negative _ _ _ _ _).2 (-5) (by norm_num)⟩

theorem exec_open_before_timeout (c : ServiceManager.Circuit)
    (m : ServiceManager.ServiceMetrics) (now lf e : ℚ) (b : Bool)
    (hst : c.state = .cbOpen) (hlf : c.last_failure_time = some lf)
    (ht : ¬c.timeout < now - lf) :
    ServiceManager._execute_with_circuit_breaker c m now b e =
      ⟨c, m, .rejected, false⟩ := by
  simp [ServiceManager._execute_with_circuit_breaker, hst, hlf, ht]

theorem exec_open_after_timeout (c : ServiceManager.Circuit)
    (m : ServiceManager.ServiceMetrics) (now lf e : ℚ) (b : Bool)
    (hst : c.state = .cbOpen) (hlf : c.last_failure_time = some lf)
    (ht : c.timeout < now - lf) :
    ServiceManager._execute_with_circuit_breaker c m now b e =
      ServiceManager.runOperation
        { c with state := .halfOpen, failure_count := 0 } m now b e := by
  simp [ServiceManager._execute_with_circuit_breaker, hst, hlf, ht]

theorem exec_open_no_failure_time (c : ServiceManager.Circuit)
    (m : ServiceManager.ServiceMetrics) (now e : ℚ) (b : Bool)
    (hst : c.state = .cbOpen) (hlf : c.last_failure_time = none) :
    ServiceManager._execute_with_circuit_breaker c m now b e =
      ⟨c, m, .typeError, false⟩ := by
  simp [ServiceManager._execute_with_circuit_breaker, hst, hlf]

theorem exec_not_open (c : ServiceManager.Circuit)
    (m : ServiceManager.ServiceMetrics) (now e : ℚ) (b : Bool)
    (hst : ¬c.state = .cbOpen) :
    ServiceManager._execute_with_circuit_breaker c m now b e =
      ServiceManager.runOperation c m now b e := by
  simp [ServiceManager._execute_with_circuit_breaker, hst]

theorem runOperation_metrics (c : ServiceManager.Circuit)
    (m : ServiceManager.ServiceMetrics) (now : ℚ) (b : Bool) (e : ℚ) :
    (ServiceManager.runOperation c m now b e).metrics =
      ServiceManager._update_metrics m b (if b then e else 0) now ∧
    (ServiceManager.runOperation c m now b e).invoked = true := by
  cases b <;> simp [ServiceManager.runOperation]

/-- C3 (amended): a call rejected while the breaker is open raises
before `_update_metrics` is reached, so it leaves the `ServiceMetrics`
**completely unchanged** (it is not counted at all, as failure or
otherwise); every call that actually invokes the wrapped operation
updates the metrics via `_update_metrics` — request count and last-call
timestamp always, success count and response timing on success, failure
count (with no timing, `execution_time = 0`) on failure. -/
theorem circuit_breaker_metrics_update :
    (∀ (c : ServiceManager.Circuit) (m : ServiceManager.ServiceMetrics)
       (now lf e : ℚ) (b : Bool),
      c.state = .cbOpen → c.last_failure_time = some lf →
      now - lf ≤ c.timeout →
      (ServiceManager._execute_with_circuit_breaker c m now b e).metrics = m ∧
      (ServiceManager._execute_with_circuit_breaker c m now b e).result
        = .rejected) ∧
    (∀ (c : ServiceManager.Circuit) (m : ServiceManager.ServiceMetrics)
       (now e : ℚ) (b : Bool),
      (ServiceManager._execute_with_circuit_breaker c m now b e).invoked
        = true →
      (ServiceManager._execute_with_circuit_breaker c m now b e).metrics =
        ServiceManager._update_metrics m b (if b then e else 0) now) ∧
    (∀ (m : ServiceManager.ServiceMetrics) (e now : ℚ),
      (ServiceManager._update_metrics m true e now).total_requests
        = m.total_requests + 1 ∧
      (ServiceManager._update_metrics m true e now).last_request_time
        = some now ∧
      (ServiceManager._update_metrics m true e now).successful_requests
        = m.successful_requests + 1 ∧
      (ServiceManager._update_metrics m true e now).failed_requests
        = m.failed_requests ∧
      (ServiceManager._update_metrics m true e now).avg_response_time
        = (if m.avg_response_time = 0 then e
           else (m.avg_response_time + e) / 2) ∧
      (ServiceManager._update_metrics m false e now).total_requests
        = m.total_requests + 1 ∧
      (ServiceManager._update_metrics m false e now).last_request_time
        = some now ∧
      (ServiceManager._update_metrics m false e now).failed_requests
        = m.failed_requests + 1 ∧
      (ServiceManager._update_metrics m false e now).successful_requests
        = m.successful_requests ∧
      (ServiceManager._update_metrics m false e now).avg_response_time
        = m.avg_response_time) := by
  refine ⟨?_, ?_, ?_⟩
  · intro c m now lf e b hst hlf hle
    constructor <;>
      simp [ServiceManager._execute_with_circuit_breaker, hst, hlf,
        not_lt.mpr hle]
  · intro c m now e b h
    by_cases hs : c.state = .cbOpen
    · cases hlf : c.last_failure_time with
      | none => rw [exec_open_no_failure_time c m now e b hs hlf] at h; simp at h
      | some lf =>
        by_cases ht : c.timeout < now - lf
        · rw [exec_open_after_timeout c m now lf e b hs hlf ht]
          exact (runOperation_metrics _ _ _ _ _).1
        · rw [exec_open_before_timeout c m now lf e b hs hlf ht] at h
          simp at h
    · rw [exec_not_open c m now e b hs]
      exact (runOperation_metrics _ _ _ _ _).1
  · intro m e now
    refine ⟨?_, ?_, ?_, ?_, ?_, ?_, ?_, ?_, ?_, ?_⟩ <;>
      simp [ServiceManager._update_metrics]

/-- C3 counterexample: a call rejected while the breaker is open (last
failure at time 0, timeout 60, call at time 10) is **not** counted in
the metrics as a failure: the metrics stay at their initial values
(`total_requests = 0`, `failed_requests = 0`). -/
theorem circuit_open_rejection_skips_metrics :
    (ServiceManager._execute_with_circuit_breaker ⟨.cbOpen, 5, some 0, 5, 60⟩
      ServiceManager.ServiceMetrics.init 10 true 1).result = .rejected ∧
    (ServiceManager._execute_with_circuit_breaker ⟨.cbOpen, 5, some 0, 5, 60⟩
      ServiceManager.ServiceMetrics.init 10 true 1).metrics.failed_requests
      = 0 ∧
    (ServiceManager._execute_with_circuit_breaker ⟨.cbOpen, 5, some 0, 5, 60⟩
      ServiceManager.ServiceMetrics.init 10 true 1).metrics.total_requests
      = 0 := by
  refine ⟨?_, ?_, ?_⟩ <;>
    norm_num [ServiceManager._execute_with_circuit_breaker,
      ServiceManager.ServiceMetrics.init]

/-- Witness for `circuit_breaker_metrics_update` at concrete inputs. -/
theorem circuit_breaker_metrics_update_witness :
    ((ServiceManager._execute_with_circuit_breaker ⟨.cbOpen, 5, some 0, 5, 60⟩
        ServiceManager.ServiceMetrics.init 10 true 1).metrics =
      ServiceManager.ServiceMetrics.init) ∧
    ((ServiceManager._execute_with_circuit_breaker ⟨.closed, 0, none, 5, 60⟩
        ServiceManager.ServiceMetrics.init 5 true 2).metrics =
      ServiceManager._update_metrics ServiceManager.ServiceMetrics.init true
        (if true then 2 else 0) 5) :=
  ⟨(circuit_breaker_metrics_update.1 ⟨.cbOpen, 5, some 0, 5, 60⟩
      ServiceManager.ServiceMetrics.init 10 0 1 true rfl rfl
      (by norm_num)).1,
   circuit_breaker_metrics_update.2.1 ⟨.closed, 0, none, 5, 60⟩
      ServiceManager.ServiceMetrics.init 5 2 true rfl⟩

theorem filter_window_all {l : List ℚ} {now w : ℚ}
    (h : ∀ t ∈ l, now - t < w) : l.filter (fun t => now - t < w) = l :=
  List.filter_eq_self.mpr (fun a ha => decide_eq_true (h a ha))

theorem filter_window_none {l : List ℚ} {now w : ℚ}
    (h : ∀ t ∈ l, w ≤ now - t) : l.filter (fun t => now - t < w) = [] :=
  List.filter_eq_nil_iff.mpr (fun a ha => by simpa using not_lt.mpr (h a ha))

theorem is_allowed_accept (key : String) (prev : List ℚ) (limit : ℕ)
    (window now : ℚ) (hall : ∀ t ∈ prev, now - t < window)
    (hlen : prev.length < limit) :
    MemoryRateLimiter.is_allowed [(key, prev)] key limit window now =
      (true, [(key, prev ++ [now])]) := by
  simp [MemoryRateLimiter.is_allowed, updAssoc, List.lookup,
    filter_window_all hall, hlen]

theorem is_allowed_reject (key : String) (prev : List ℚ) (limit : ℕ)
    (window now : ℚ) (hall : ∀ t ∈ prev, now - t < window)
    (hlen : ¬prev.length < limit) :
    MemoryRateLimiter.is_allowed [(key, prev)] key limit window now =
      (false, [(key, prev)]) := by
  simp [MemoryRateLimiter.is_allowed, updAssoc, List.lookup,
    filter_window_all hall, hlen]

/-- C7: with `limit=5, window=60`, six `is_allowed` calls for the same
key within the window yield exactly five `true` then one `false`, and
the final recorded history holds only the five accepted timestamps; in
general a rejected call records no timestamp (the key's history after
the call is exactly the pruned old history); and once the window has
elapsed past every recorded timestamp a call is admitted again. -/
theorem rate_limiter_sliding_window :
    (∀ τ₁ τ₂ τ₃ τ₄ τ₅ τ₆ : ℚ, τ₁ ≤ τ₂ → τ₂ ≤ τ₃ → τ₃ ≤ τ₄ → τ₄ ≤ τ₅ →
      τ₅ ≤ τ₆ → τ₆ - τ₁ < 60 →
      MemoryRateLimiter.runCalls [] "client" 5 60 [τ₁, τ₂, τ₃, τ₄, τ₅, τ₆] =
        ([true, true, true, true, true, false],
         [("client", [τ₁, τ₂, τ₃, τ₄, τ₅])])) ∧
    (∀ (st : List (String × List ℚ)) (key : String) (limit : ℕ)
       (window now : ℚ),
      (MemoryRateLimiter.is_allowed st key limit window now).1 = false →
      (MemoryRateLimiter.is_allowed st key limit window now).2.lookup key =
        some (((st.lookup key).getD []).filter
          (fun t => now - t < window))) ∧
    (∀ (st : List (String × List ℚ)) (key : String) (limit : ℕ)
       (window now : ℚ), 0 < limit →
      (∀ t ∈ (st.lookup key).getD [], window ≤ now - t) →
      (MemoryRateLimiter.is_allowed st key limit window now).1 = true) := by
  refine ⟨?_, ?_, ?_⟩
  · intro τ₁ τ₂ τ₃ τ₄ τ₅ τ₆ h12 h23 h34 h45 h56 h61
    have e1 : MemoryRateLimiter.is_allowed [] "client" 5 60 τ₁ =
        (true, [("client", [τ₁])]) := rfl
    have e2 : MemoryRateLimiter.is_allowed [("client", [τ₁])] "client" 5 60 τ₂
        = (true, [("client", [τ₁, τ₂])]) := by
      simpa using is_allowed_accept "client" [τ₁] 5 60 τ₂
        (by intro t ht; simp at ht; subst ht; linarith) (by norm_num)
    have e3 : MemoryRateLimiter.is_allowed [("client", [τ₁, τ₂])] "client"
        5 60 τ₃ = (true, [("client", [τ₁, τ₂, τ₃])]) := by
      simpa using is_allowed_accept "client" [τ₁, τ₂] 5 60 τ₃
        (by intro t ht; simp at ht; rcases ht with rfl | rfl <;> linarith)
        (by norm_num)
    have e4 : MemoryRateLimiter.is_allowed [("client", [τ₁, τ₂, τ₃])] "client"
        5 60 τ₄ = (true, [("client", [τ₁, τ₂, τ₃, τ₄])]) := by
      simpa using is_allowed_accept "client" [τ₁, τ₂, τ₃] 5 60 τ₄
        (by intro t ht; simp at ht
            rcases ht with rfl | rfl | rfl <;> linarith)
        (by norm_num)
    have e5 : MemoryRateLimiter.is_allowed [("client", [τ₁, τ₂, τ₃, τ₄])]
        "client" 5 60 τ₅ = (true, [("client", [τ₁, τ₂, τ₃, τ₄, τ₅])]) := by
      simpa using is_allowed_accept "client" [τ₁, τ₂, τ₃, τ₄] 5 60 τ₅
        (by intro t ht; simp at ht
            rcases ht with rfl | rfl | rfl | rfl <;> linarith)
        (by norm_num)
    have e6 : MemoryRateLimiter.is_allowed [("client", [τ₁, τ₂, τ₃, τ₄, τ₅])]
        "client" 5 60 τ₆ = (false, [("client", [τ₁, τ₂, τ₃, τ₄, τ₅])]) := by
      simpa using is_allowed_reject "client" [τ₁, τ₂, τ₃, τ₄, τ₅] 5 60 τ₆
        (by intro t ht; simp at ht
            rcases ht with rfl | rfl | rfl | rfl | rfl <;> linarith)
        (by norm_num)
    simp only [MemoryRateLimiter.runCalls, e1, e2, e3, e4, e5, e6]
  · intro st key limit window now h
    unfold MemoryRateLimiter.is_allowed at h ⊢
    by_cases hc : (((st.lookup key).getD []).filter
        (fun t => now - t < window)).length < limit
    · simp only [if_pos hc] at h
      simp at h
    · simp only [if_neg hc]
      exact lookup_updAssoc _ _ _
  · intro st key limit window now hpos hall
    unfold MemoryRateLimiter.is_allowed
    simp only [filter_window_none hall]
    simp [hpos]

/-- Witness for `rate_limiter_sliding_window` at concrete inputs. -/
theorem rate_limiter_sliding_window_witness :
    (MemoryRateLimiter.runCalls [] "client" 5 60 [0, 1, 2, 3, 4, 5] =
      ([true, true, true, true, true, false],
       [("client", [0, 1, 2, 3, 4])])) ∧
    ((MemoryRateLimiter.is_allowed [] "k" 0 60 5).2.lookup "k" =
      some ((([] : List ℚ)).filter (fun t => (5:ℚ) - t < 60))) ∧
    ((MemoryRateLimiter.is_allowed [] "k" 5 60 5).1 = true) := by
  refine ⟨rate_limiter_sliding_window.1 0 1 2 3 4 5 (by norm_num)
      (by norm_num) (by norm_num) (by norm_num) (by norm_num) (by norm_num),
    ?_, ?_⟩
  · have := rate_limiter_sliding_window.2.1 [] "k" 0 60 5 rfl
    simpa using this
  · exact rate_limiter_sliding_window.2.2 [] "k" 5 60 5 (by decide)
      (by simp)

theorem mem_insertDescBy {α : Type} (key : α → ℚ) (q x : α) (l : List α) :
    x ∈ insertDescBy key q l ↔ x = q ∨ x ∈ l := by
  induction l with
  | nil => simp [insertDescBy]
  | cons p ps ih =>
    unfold insertDescBy
    by_cases h : key p < key q
    · simp [h]
    · simp [h, ih]
      tauto

theorem mem_sortDescBy {α : Type} (key : α → ℚ) (x : α) (l : List α) :
    x ∈ sortDescBy key l ↔ x ∈ l := by
  induction l with
  | nil => simp [sortDescBy]
  | cons p ps ih => simp [sortDescBy, mem_insertDescBy, ih]

theorem length_insertDescBy {α : Type} (key : α → ℚ) (q : α) (l : List α) :
    (insertDescBy key q l).length = l.length + 1 := by
  induction l with
  | nil => simp [insertDescBy]
  | cons p ps ih =>
    unfold insertDescBy
    by_cases h : key p < key q <;> simp [h, ih]

theorem length_sortDescBy {α : Type} (key : α → ℚ) (l : List α) :
    (sortDescBy key l).length = l.length := by
  induction l with
  | nil => rfl
  | cons p ps ih => simp [sortDescBy, length_insertDescBy, ih]

/-- C9: every record built by the fallback generator — single stock,
single crypto, and every element of both trending lists — carries
`is_sample_data = true`; every record built by the live fetch path
(`_fetch_single_stock`) carries no `is_sample_data` key at all
(absent/falsy). -/
theorem fallback_tagging :
    (∀ (symbol : String) (r : Draws),
      (FallbackDataService.get_sample_stock_data symbol r).is_sample_data
        = some true) ∧
    (∀ (symbol : String) (r : Draws),
      (FallbackDataService.get_sample_crypto_data symbol r).is_sample_data
        = some true) ∧
    (∀ (region : String) (limit : ℤ) (rng : ℕ → Draws),
      (FallbackDataService.get_sample_trending_stocks region limit rng).all
        (fun q => q.is_sample_data == some true) = true) ∧
    (∀ (limit : ℤ) (order_by : String) (rng : ℕ → Draws),
      (FallbackDataService.get_sample_trending_cryptos limit order_by rng).all
        (fun q => q.is_sample_data == some true) = true) ∧
    (∀ (symbol : String) (info : FetchInfo) (closes : List ℚ)
       (volumes : List ℤ) (stdPct : ℚ),
      (OptimizedStockService._fetch_single_stock symbol info closes volumes
        stdPct).all (fun q => q.is_sample_data == none) = true) := by
  refine ⟨fun _ _ => rfl, fun _ _ => rfl, ?_, ?_, ?_⟩
  · intro region limit rng
    rw [List.all_eq_true]
    intro q hq
    simp only [FallbackDataService.get_sample_trending_stocks] at hq
    rw [mem_sortDescBy] at hq
    obtain ⟨p, hp, rfl⟩ := List.mem_map.mp hq
    rfl
  · intro limit order_by rng
    rw [List.all_eq_true]
    intro q hq
    simp only [FallbackDataService.get_sample_trending_cryptos] at hq
    have fin : ∀ hq' : q ∈ (pySlice (padSymbols
        ["BTC", "ETH", "BNB", "XRP", "ADA", "SOL", "DOGE", "MATIC", "DOT",
         "AVAX"] "COIN" limit) limit).enum.map
        (fun p => FallbackDataService.forcePositive
          (FallbackDataService.get_sample_crypto_data p.2 (rng p.1))),
        (q.is_sample_data == some true) = true := by
      intro hq'
      obtain ⟨p, hp, rfl⟩ := List.mem_map.mp hq'
      rfl
    split at hq
    · exact fin ((mem_sortDescBy _ _ _).mp hq)
    · split at hq
      · exact fin ((mem_sortDescBy _ _ _).mp hq)
      · split at hq
        · exact fin ((mem_sortDescBy _ _ _).mp hq)
        · exact fin ((mem_sortDescBy _ _ _).mp hq)
  · intro symbol info closes volumes stdPct
    unfold OptimizedStockService._fetch_single_stock
    cases closes.getLast? with
    | none => rfl
    | some cur => rfl

/-- C4 (amended): the derived-field relations `change_amount =
price - previous_close`, `change_percent = (price - previous_close) /
previous_close * 100` and `is_gaining = change_amount > 0` hold exactly
for the model-layer `Stock` dataclass, and hold up to the per-field
rounding to two decimals for live-fetch records.  The **fallback
generator**, however, computes `change_percent` relative to the base
price, not the previous close (`change_amount = base_price *
change_percent / 100`, so `change_amount / price_raw * 100 =
change_percent`), and neither live nor fallback dicts carry an
`is_gaining` key at all (that field exists only in the model layer). -/
theorem derived_field_consistency :
    (∀ (sym nm : String) (price prev : ℚ) (mc : Option ℚ) (vol : Option ℤ),
      0 < prev →
      (Stock.make sym nm price prev mc vol none).change_percent =
        some ((price - prev) / prev * 100) ∧
      (Stock.make sym nm price prev mc vol none).change_amount =
        price - prev ∧
      ((Stock.make sym nm price prev mc vol none).is_gaining = true ↔
        0 < price - prev)) ∧
    (∀ (symbol : String) (info : FetchInfo) (closes : List ℚ)
       (volumes : List ℤ) (stdPct cur prev : ℚ),
      closes.getLast? = some cur →
      prev = (if 1 < closes.length then closes.getD (closes.length - 2) cur
              else cur) →
      0 < prev →
      (OptimizedStockService._fetch_single_stock symbol info closes volumes
          stdPct).map
        (fun q => (q.price, q.previous_close, q.change_amount,
                   q.change_percent, q.is_gaining)) =
      some (some (round2 cur), some (round2 prev), some (round2 (cur - prev)),
            some (round2 ((cur - prev) / prev * 100)), none)) ∧
    (∀ (symbol : String) (r : Draws), r.bp ≠ 0 →
      FallbackDataService.sampleChangeAmountRaw r / r.bp * 100 = r.cp ∧
      (FallbackDataService.get_sample_stock_data symbol r).change_amount =
        some (round2 (FallbackDataService.sampleChangeAmountRaw r)) ∧
      (FallbackDataService.get_sample_stock_data symbol r).change_percent =
        some (round2 r.cp) ∧
      (FallbackDataService.get_sample_stock_data symbol r).is_gaining
        = none) := by
  refine ⟨?_, ?_, ?_⟩
  · intro sym nm price prev mc vol hpos
    refine ⟨?_, rfl, ?_⟩
    · simp [Stock.make, hpos]
    · simp [Stock.is_gaining, Stock.change_amount, Stock.make, sub_pos]
  · intro symbol info closes volumes stdPct cur prev hcur hprev hpos
    unfold OptimizedStockService._fetch_single_stock
    rw [hcur]
    simp only [Option.map_some]
    rw [← hprev, if_pos hpos]
    rfl
  · intro symbol r hbp
    refine ⟨?_, rfl, rfl, rfl⟩
    rw [FallbackDataService.sampleChangeAmountRaw]
    field_simp
    ring

/-- C4 counterexample: the fallback record for "AAPL" generated from the
draws base_price = 100, change_percent = 4 has price 100,
previous_close 96 and change_percent 4; the claim's formula gives
(100 - 96) / 96 * 100 = 25/6, which differs from 4 by 1/6 — far beyond
floating-point tolerance — and the record carries no `is_gaining` key,
so `is_gaining` does not equal `change_amount > 0` either. -/
theorem fallback_percent_counterexample :
    (FallbackDataService.get_sample_stock_data "AAPL"
      ⟨100, 4, 0, 0, 1, 0, 0⟩).price = some 100 ∧
    (FallbackDataService.get_sample_stock_data "AAPL"
      ⟨100, 4, 0, 0, 1, 0, 0⟩).previous_close = some 96 ∧
    (FallbackDataService.get_sample_stock_data "AAPL"
      ⟨100, 4, 0, 0, 1, 0, 0⟩).change_percent = some 4 ∧
    ((100 : ℚ) - 96) / 96 * 100 - 4 = 1 / 6 ∧
    (1 / 100 : ℚ) < 1 / 6 ∧
    (FallbackDataService.get_sample_stock_data "AAPL"
      ⟨100, 4, 0, 0, 1, 0, 0⟩).is_gaining = none := by
  refine ⟨?_, ?_, ?_, by norm_num, by norm_num, rfl⟩ <;>
    · show some (round2 _) = _
      norm_num [round2, roundHalfEven, FallbackDataService.sampleChangeAmountRaw]

/-- Witness for `derived_field_consistency` at concrete inputs. -/
theorem derived_field_consistency_witness :
    ((Stock.make "A" "A" 110 100 none none none).change_percent =
      some ((110 - 100) / 100 * 100) ∧
     (Stock.make "A" "A" 110 100 none none none).change_amount = 110 - 100 ∧
     ((Stock.make "A" "A" 110 100 none none none).is_gaining = true ↔
       (0:ℚ) < 110 - 100)) ∧
    ((OptimizedStockService._fetch_single_stock "AAPL" {} [100, 110] [5]
        0).map (fun q => (q.price, q.previous_close, q.change_amount,
          q.change_percent, q.is_gaining)) =
      some (some (round2 110), some (round2 100), some (round2 (110 - 100)),
            some (round2 ((110 - 100) / 100 * 100)), none)) ∧
    (FallbackDataService.sampleChangeAmountRaw ⟨100, 4, 0, 0, 1, 0, 0⟩ / 100
      * 100 = 4) := by
  refine ⟨derived_field_consistency.1 "A" "A" 110 100 none none
      (by norm_num), ?_, ?_⟩
  · exact derived_field_consistency.2.1 "AAPL" {} [100, 110] [5] 0 110 100
      rfl (by norm_num) (by norm_num)
  · exact (derived_field_consistency.2.2 "AAPL" ⟨100, 4, 0, 0, 1, 0, 0⟩
      (by norm_num)).1

theorem get_miss {α : Type} (s : CacheManager.State α) (now : ℚ)
    (k cat : String)
    (h : s.cache.lookup (CacheManager.full_key cat k) = none) :
    CacheManager.get s now k cat =
      (none, { s with miss_count := s.miss_count + 1 }) := by
  unfold CacheManager.get
  simp only [h]

theorem length_pySlice_pad (base : List String) (pre : String) (limit : ℤ)
    (h : 0 ≤ limit) :
    (pySlice (padSymbols base pre limit) limit).length = limit.toNat := by
  simp [pySlice, padSymbols, if_pos h, List.length_take, List.length_append,
    List.length_map, List.length_range']
  omega

theorem length_sample_trending_stocks (region : String) (limit : ℤ)
    (rng : ℕ → Draws) (h : 0 ≤ limit) :
    ((FallbackDataService.get_sample_trending_stocks region limit rng).length
      : ℤ) = limit := by
  unfold FallbackDataService.get_sample_trending_stocks
  rw [length_sortDescBy, List.length_map, List.enum_length,
    length_pySlice_pad _ _ _ h, Int.toNat_of_nonneg h]

/-- C5: on a trending-stocks cache miss, when the provider's batch
contains fewer valid records than `limit // 2`, the orchestrator
discards the partial live batch: it returns exactly the fallback
generator's trending list, that list has exactly `limit` elements, and
the fallback-use counter is incremented. -/
theorem trending_insufficiency_fallback
    (st : CacheManager.State ServiceOrchestrator.Payload)
    (m : ServiceOrchestrator.Metrics) (now : ℚ) (limit : ℤ) (region : String)
    (data : List (Option Quote)) (rng : ℕ → Draws)
    (hmiss : st.cache.lookup (CacheManager.full_key "trending"
      ("trending_stocks_" ++ region ++ "_" ++ toString limit)) = none)
    (hvalid : ((data.filterMap (fun oi =>
        if ServiceOrchestrator.validQuote oi then oi else none)).length : ℤ)
      < limit.fdiv 2) :
    (ServiceOrchestrator.get_trending_stocks st m now limit region (.ok data)
        rng).result =
      .list (FallbackDataService.get_sample_trending_stocks region limit
        rng) ∧
    ((FallbackDataService.get_sample_trending_stocks region limit rng).length
      : ℤ) = limit ∧
    (ServiceOrchestrator.get_trending_stocks st m now limit region (.ok data)
        rng).metrics.fallback_used = m.fallback_used + 1 := by
  have hlim : 0 ≤ limit := by
    have h0 : (0:ℤ) ≤ ((data.filterMap (fun oi =>
        if ServiceOrchestrator.validQuote oi then oi else none)).length : ℤ) :=
      Int.ofNat_nonneg _
    rw [Int.fdiv_eq_ediv _ (by norm_num)] at hvalid
    omega
  refine ⟨?_, length_sample_trending_stocks region limit rng hlim, ?_⟩ <;>
  · simp only [ServiceOrchestrator.get_trending_stocks,
      get_miss st now ("trending_stocks_" ++ region ++ "_" ++ toString limit)
        "trending" hmiss]
    simp only [if_neg (not_le.mpr hvalid)]

/-- Witness for `trending_insufficiency_fallback` at concrete inputs:
a `limit = 10` request against an empty cache where the provider batch
holds 2 valid records (and 8 `None`s). -/
theorem trending_insufficiency_fallback_witness :
    ((ServiceOrchestrator.get_trending_stocks
        (CacheManager.State.empty ServiceOrchestrator.Payload 1000 300)
        ServiceOrchestrator.Metrics.init 0 10 "US"
        (.ok [some { symbol := some "AAPL", price := some 1 },
              some { symbol := some "MSFT", price := some 2 },
              none, none, none, none, none, none, none, none])
        (fun _ => ⟨100, 4, 0, 0, 1, 0, 0⟩)).result =
      .list (FallbackDataService.get_sample_trending_stocks "US" 10
        (fun _ => ⟨100, 4, 0, 0, 1, 0, 0⟩))) ∧
    ((FallbackDataService.get_sample_trending_stocks "US" 10
        (fun _ => ⟨100, 4, 0, 0, 1, 0, 0⟩)).length : ℤ) = 10 := by
  have h := trending_insufficiency_fallback
    (CacheManager.State.empty ServiceOrchestrator.Payload 1000 300)
    ServiceOrchestrator.Metrics.init 0 10 "US"
    [some { symbol := some "AAPL", price := some 1 },
     some { symbol := some "MSFT", price := some 2 },
     none, none, none, none, none, none, none, none]
    (fun _ => ⟨100, 4, 0, 0, 1, 0, 0⟩) rfl
    (by norm_num [ServiceOrchestrator.validQuote, List.filterMap]; decide)
  exact ⟨h.1, h.2.1⟩

/-- C10: for every trending request with `limit ≤ 1` the validity check
`len(valid) >= limit // 2` always passes (the floor of `limit / 2` is at
most 0), so on a cache miss the live result — even an empty one — is
cached with ttl 600 and returned, the metrics record no fallback use and
no error, and the fallback generator is not invoked: this holds for both
`get_trending_stocks` and `get_trending_cryptos`. -/
theorem trending_small_limit_returns_live
    (st : CacheManager.State ServiceOrchestrator.Payload)
    (m : ServiceOrchestrator.Metrics) (now : ℚ) (limit : ℤ)
    (region order_by : String) (data : List (Option Quote))
    (rng : ℕ → Draws) (hlim : limit ≤ 1)
    (hmiss_s : st.cache.lookup (CacheManager.full_key "trending"
      ("trending_stocks_" ++ region ++ "_" ++ toString limit)) = none)
    (hmiss_c : st.cache.lookup (CacheManager.full_key "trending"
      ("trending_crypto_" ++ order_by ++ "_" ++ toString limit)) = none) :
    (ServiceOrchestrator.get_trending_stocks st m now limit region (.ok data)
        rng =
      { result := .list (data.filterMap (fun oi =>
          if ServiceOrchestrator.validQuote oi then oi else none))
        cache := CacheManager.set { st with miss_count := st.miss_count + 1 }
          now ("trending_stocks_" ++ region ++ "_" ++ toString limit)
          (.list (data.filterMap (fun oi =>
            if ServiceOrchestrator.validQuote oi then oi else none)))
          "trending" (some 600)
        metrics := { m with requests_count := m.requests_count + 1 } }) ∧
    (ServiceOrchestrator.get_trending_cryptos st m now limit order_by
        (.ok data) rng =
      { result := .list (data.filterMap (fun oi =>
          if ServiceOrchestrator.validQuote oi then oi else none))
        cache := CacheManager.set { st with miss_count := st.miss_count + 1 }
          now ("trending_crypto_" ++ order_by ++ "_" ++ toString limit)
          (.list (data.filterMap (fun oi =>
            if ServiceOrchestrator.validQuote oi then oi else none)))
          "trending" (some 600)
        metrics := { m with requests_count := m.requests_count + 1 } }) := by
  have hcond : limit.fdiv 2 ≤ ((data.filterMap (fun oi =>
      if ServiceOrchestrator.validQuote oi then oi else none)).length : ℤ) := by
    have h0 : limit.fdiv 2 ≤ 0 := by
      rw [Int.fdiv_eq_ediv _ (by norm_num)]
      omega
    exact le_trans h0 (Int.ofNat_nonneg _)
  constructor
  · simp only [ServiceOrchestrator.get_trending_stocks,
      get_miss st now ("trending_stocks_" ++ region ++ "_" ++ toString limit)
        "trending" hmiss_s]
    simp only [if_pos hcond]
  · simp only [ServiceOrchestrator.get_trending_cryptos,
      get_miss st now ("trending_crypto_" ++ order_by ++ "_" ++
        toString limit) "trending" hmiss_c]
    simp only [if_pos hcond]

/-- Witness for `trending_small_limit_returns_live` at concrete inputs:
a `limit = 1` request against an empty cache whose provider batch is a
single `None` (zero valid records). -/
theorem trending_small_limit_returns_live_witness :
    ServiceOrchestrator.get_trending_stocks
      (CacheManager.State.empty ServiceOrchestrator.Payload 1000 300)
      ServiceOrchestrator.Metrics.init 0 1 "US" (.ok [none])
      (fun _ => ⟨100, 4, 0, 0, 1, 0, 0⟩) =
    { result := .list ([none].filterMap (fun oi =>
        if ServiceOrchestrator.validQuote oi then oi else none))
      cache := CacheManager.set
        { CacheManager.State.empty ServiceOrchestrator.Payload 1000 300 with
          miss_count := (CacheManager.State.empty ServiceOrchestrator.Payload
            1000 300).miss_count + 1 } 0 ("trending_stocks_" ++ "US" ++ "_"
          ++ toString (1 : ℤ))
        (.list ([none].filterMap (fun oi =>
          if ServiceOrchestrator.validQuote oi then oi else none)))
        "trending" (some 600)
      metrics := { ServiceOrchestrator.Metrics.init with
        requests_count := ServiceOrchestrator.Metrics.init.requests_count
          + 1 } } :=
  (trending_small_limit_returns_live
    (CacheManager.State.empty ServiceOrchestrator.Payload 1000 300)
    ServiceOrchestrator.Metrics.init 0 1 "US" "percent_change_24h" [none]
    (fun _ => ⟨100, 4, 0, 0, 1, 0, 0⟩) (by norm_num) rfl rfl).1

/-- C8: the orchestrator's four get operations are total over every
provider behaviour — a raised exception (`.error`), a falsy/no-data
return, or data — and every path ends in one of the three permitted
outcomes: the (truthy) cached payload, the live provider data, or a
fallback-generator record; no provider exception reaches the caller. -/
theorem orchestrator_exception_containment :
    (∀ (st : CacheManager.State ServiceOrchestrator.Payload)
       (m : ServiceOrchestrator.Metrics) (now : ℚ) (symbol : String)
       (provider : Except Unit (Option Quote)) (r : Draws),
      (∃ pl, (CacheManager.get st now ("stock_" ++ symbol.toUpper)
          "stocks").1 = some pl ∧ ServiceOrchestrator.pyTruthy pl = true ∧
        (ServiceOrchestrator.get_stock_data st m now symbol provider
          r).result = pl) ∨
      (∃ d, provider = .ok (some d) ∧
        (ServiceOrchestrator.get_stock_data st m now symbol provider
          r).result = .q d) ∨
      (ServiceOrchestrator.get_stock_data st m now symbol provider r).result
        = .q (FallbackDataService.get_sample_stock_data symbol r)) ∧
    (∀ (st : CacheManager.State ServiceOrchestrator.Payload)
       (m : ServiceOrchestrator.Metrics) (now : ℚ) (symbol : String)
       (provider : Except Unit (Option Quote)) (r : Draws),
      (∃ pl, (CacheManager.get st now ("crypto_" ++ symbol.toUpper)
          "crypto").1 = some pl ∧ ServiceOrchestrator.pyTruthy pl = true ∧
        (ServiceOrchestrator.get_crypto_data st m now symbol provider
          r).result = pl) ∨
      (∃ d, provider = .ok (some d) ∧
        (ServiceOrchestrator.get_crypto_data st m now symbol provider
          r).result = .q d) ∨
      (ServiceOrchestrator.get_crypto_data st m now symbol provider r).result
        = .q (FallbackDataService.get_sample_crypto_data symbol r)) ∧
    (∀ (st : CacheManager.State ServiceOrchestrator.Payload)
       (m : ServiceOrchestrator.Metrics) (now : ℚ) (limit : ℤ)
       (region : String) (provider : Except Unit (List (Option Quote)))
       (rng : ℕ → Draws),
      (∃ pl, (CacheManager.get st now ("trending_stocks_" ++ region ++ "_"
          ++ toString limit) "trending").1 = some pl ∧
        ServiceOrchestrator.pyTruthy pl = true ∧
        (ServiceOrchestrator.get_trending_stocks st m now limit region
          provider rng).result = pl) ∨
      (∃ data, provider = .ok data ∧
        (ServiceOrchestrator.get_trending_stocks st m now limit region
          provider rng).result = .list (data.filterMap (fun oi =>
            if ServiceOrchestrator.validQuote oi then oi else none))) ∨
      (ServiceOrchestrator.get_trending_stocks st m now limit region provider
        rng).result = .list
          (FallbackDataService.get_sample_trending_stocks region limit
            rng)) ∧
    (∀ (st : CacheManager.State ServiceOrchestrator.Payload)
       (m : ServiceOrchestrator.Metrics) (now : ℚ) (limit : ℤ)
       (order_by : String) (provider : Except Unit (List (Option Quote)))
       (rng : ℕ → Draws),
      (∃ pl, (CacheManager.get st now ("trending_crypto_" ++ order_by ++ "_"
          ++ toString limit) "trending").1 = some pl ∧
        ServiceOrchestrator.pyTruthy pl = true ∧
        (ServiceOrchestrator.get_trending_cryptos st m now limit order_by
          provider rng).result = pl) ∨
      (∃ data, provider = .ok data ∧
        (ServiceOrchestrator.get_trending_cryptos st m now limit order_by
          provider rng).result = .list (data.filterMap (fun oi =>
            if ServiceOrchestrator.validQuote oi then oi else none))) ∨
      (ServiceOrchestrator.get_trending_cryptos st m now limit order_by
        provider rng).result = .list
          (FallbackDataService.get_sample_trending_cryptos limit order_by
            rng)) := by
  refine ⟨?_, ?_, ?_, ?_⟩
  · intro st m now symbol provider r
    rcases hg : CacheManager.get st now ("stock_" ++ symbol.toUpper) "stocks"
      with ⟨cached, st2⟩
    cases cached with
    | some pl =>
      by_cases hp : ServiceOrchestrator.pyTruthy pl = true
      · exact Or.inl ⟨pl, rfl, hp,
          by simp [ServiceOrchestrator.get_stock_data, hg, hp]⟩
      · rcases provider with e | od
        · exact Or.inr (Or.inr
            (by simp [ServiceOrchestrator.get_stock_data, hg, hp]))
        · cases od with
          | none => exact Or.inr (Or.inr
              (by simp [ServiceOrchestrator.get_stock_data, hg, hp]))
          | some d => exact Or.inr (Or.inl ⟨d, rfl,
              by simp [ServiceOrchestrator.get_stock_data, hg, hp]⟩)
    | none =>
      rcases provider with e | od
      · exact Or.inr (Or.inr
          (by simp [ServiceOrchestrator.get_stock_data, hg]))
      · cases od with
        | none => exact Or.inr (Or.inr
            (by simp [ServiceOrchestrator.get_stock_data, hg]))
        | some d => exact Or.inr (Or.inl ⟨d, rfl,
            by simp [ServiceOrchestrator.get_stock_data, hg]⟩)
  · intro st m now symbol provider r
    rcases hg : CacheManager.get st now ("crypto_" ++ symbol.toUpper)
      "crypto" with ⟨cached, st2⟩
    cases cached with
    | some pl =>
      by_cases hp : ServiceOrchestrator.pyTruthy pl = true
      · exact Or.inl ⟨pl, rfl, hp,
          by simp [ServiceOrchestrator.get_crypto_data, hg, hp]⟩
      · rcases provider with e | od
        · exact Or.inr (Or.inr
            (by simp [ServiceOrchestrator.get_crypto_data, hg, hp]))
        · cases od with
          | none => exact Or.inr (Or.inr
              (by simp [ServiceOrchestrator.get_crypto_data, hg, hp]))
          | some d => exact Or.inr (Or.inl ⟨d, rfl,
              by simp [ServiceOrchestrator.get_crypto_data, hg, hp]⟩)
    | none =>
      rcases provider with e | od
      · exact Or.inr (Or.inr
          (by simp [ServiceOrchestrator.get_crypto_data, hg]))
      · cases od with
        | none => exact Or.inr (Or.inr
            (by simp [ServiceOrchestrator.get_crypto_data, hg]))
        | some d => exact Or.inr (Or.inl ⟨d, rfl,
            by simp [ServiceOrchestrator.get_crypto_data, hg]⟩)
  · intro st m now limit region provider rng
    rcases hg : CacheManager.get st now ("trending_stocks_" ++ region ++ "_"
      ++ toString limit) "trending" with ⟨cached, st2⟩
    cases cached with
    | some pl =>
      by_cases hp : ServiceOrchestrator.pyTruthy pl = true
      · exact Or.inl ⟨pl, rfl, hp,
          by simp [ServiceOrchestrator.get_trending_stocks, hg, hp]⟩
      · rcases provider with e | data
        · exact Or.inr (Or.inr
            (by simp [ServiceOrchestrator.get_trending_stocks, hg, hp]))
        · by_cases hv : limit.fdiv 2 ≤ ((data.filterMap (fun oi =>
              if ServiceOrchestrator.validQuote oi then oi else
                none)).length : ℤ)
          · exact Or.inr (Or.inl ⟨data, rfl,
              by simp [ServiceOrchestrator.get_trending_stocks, hg, hp, hv]⟩)
          · exact Or.inr (Or.inr
              (by simp [ServiceOrchestrator.get_trending_stocks, hg, hp, hv]))
    | none =>
      rcases provider with e | data
      · exact Or.inr (Or.inr
          (by simp [ServiceOrchestrator.get_trending_stocks, hg]))
      · by_cases hv : limit.fdiv 2 ≤ ((data.filterMap (fun oi =>
            if ServiceOrchestrator.validQuote oi then oi else
              none)).length : ℤ)
        · exact Or.inr (Or.inl ⟨data, rfl,
            by simp [ServiceOrchestrator.get_trending_stocks, hg, hv]⟩)
        · exact Or.inr (Or.inr
            (by simp [ServiceOrchestrator.get_trending_stocks, hg, hv]))
  · intro st m now limit order_by provider rng
    rcases hg : CacheManager.get st now ("trending_crypto_" ++ order_by ++
      "_" ++ toString limit) "trending" with ⟨cached, st2⟩
    cases cached with
    | some pl =>
      by_cases hp : ServiceOrchestrator.pyTruthy pl = true
      · exact Or.inl ⟨pl, rfl, hp,
          by simp [ServiceOrchestrator.get_trending_cryptos, hg, hp]⟩
      · rcases provider with e | data
        · exact Or.inr (Or.inr
            (by simp [ServiceOrchestrator.get_trending_cryptos, hg, hp]))
        · by_cases hv : limit.fdiv 2 ≤ ((data.filterMap (fun oi =>
              if ServiceOrchestrator.validQuote oi then oi else
                none)).length : ℤ)
          · exact Or.inr (Or.inl ⟨data, rfl,
              by simp [ServiceOrchestrator.get_trending_cryptos, hg, hp,
                hv]⟩)
          · exact Or.inr (Or.inr
              (by simp [ServiceOrchestrator.get_trending_cryptos, hg, hp,
                hv]))
    | none =>
      rcases provider with e | data
      · exact Or.inr (Or.inr
          (by simp [ServiceOrchestrator.get_trending_cryptos, hg]))
      · by_cases hv : limit.fdiv 2 ≤ ((data.filterMap (fun oi =>
            if ServiceOrchestrator.validQuote oi then oi else
              none)).length : ℤ)
        · exact Or.inr (Or.inl ⟨data, rfl,
            by simp [ServiceOrchestrator.get_trending_cryptos, hg, hv]⟩)
        · exact Or.inr (Or.inr
            (by simp [ServiceOrchestrator.get_trending_cryptos, hg, hv]))

theorem map_fst_filter_ne {β : Type} (l : List (String × β)) (k : String) :
    (l.filter (fun p => p.1 ≠ k)).map Prod.fst =
      (l.map Prod.fst).filter (fun a => a ≠ k) := by
  induction l with
  | nil => rfl
  | cons p ps ih =>
    simp only [List.filter_cons, List.map_cons]
    by_cases h : p.1 = k
    · rw [if_neg (by simp [h]), if_neg (by simp [h])]
      exact ih
    · rw [if_pos (by simp [h]), if_pos (by simp [h])]
      simp only [List.map_cons]
      rw [ih]

theorem length_filter_ne_lt {β : Type} (l : List (String × β)) (k : String)
    (h : k ∈ l.map Prod.fst) :
    (l.filter (fun p => p.1 ≠ k)).length < l.length := by
  induction l with
  | nil => simp at h
  | cons p ps ih =>
    by_cases hp : p.1 = k
    · rw [List.filter_cons, if_neg (by simp [hp])]
      exact Nat.lt_succ_of_le (List.length_filter_le _ _)
    · simp only [List.map_cons, List.mem_cons] at h
      rcases h with h | h
      · exact absurd h.symm hp
      · rw [List.filter_cons, if_pos (by simp [hp])]
        simpa using Nat.succ_lt_succ (ih h)

theorem foldl_min_spec (ps : List (String × ℚ)) (b : String × ℚ) :
    ((ps.foldl (fun best q => if q.2 < best.2 then q else best) b) = b ∨
     (ps.foldl (fun best q => if q.2 < best.2 then q else best) b) ∈ ps) ∧
    (ps.foldl (fun best q => if q.2 < best.2 then q else best) b).2 ≤ b.2 ∧
    (∀ q ∈ ps,
      (ps.foldl (fun best q => if q.2 < best.2 then q else best) b).2
        ≤ q.2) := by
  induction ps generalizing b with
  | nil => simp
  | cons q qs ih =>
    simp only [List.foldl_cons]
    by_cases h : q.2 < b.2
    · rw [if_pos h]
      obtain ⟨hm, hle, hall⟩ := ih q
      refine ⟨?_, le_trans hle (le_of_lt h), ?_⟩
      · rcases hm with hm | hm
        · exact Or.inr (by simp [hm])
        · exact Or.inr (List.mem_cons_of_mem _ hm)
      · intro p hp
        rcases List.mem_cons.mp hp with rfl | hp
        · exact hle
        · exact hall p hp
    · rw [if_neg h]
      obtain ⟨hm, hle, hall⟩ := ih b
      refine ⟨?_, hle, ?_⟩
      · rcases hm with hm | hm
        · exact Or.inl hm
        · exact Or.inr (List.mem_cons_of_mem _ hm)
      · intro p hp
        rcases List.mem_cons.mp hp with rfl | hp
        · exact le_trans hle (not_lt.mp h)
        · exact hall p hp

theorem minByTime_spec (l : List (String × ℚ)) (p : String × ℚ)
    (h : CacheManager.minByTime l = some p) :
    p ∈ l ∧ ∀ q ∈ l, p.2 ≤ q.2 := by
  cases l with
  | nil => simp [CacheManager.minByTime] at h
  | cons b ps =>
    simp only [CacheManager.minByTime, Option.some.injEq] at h
    obtain ⟨hm, hle, hall⟩ := foldl_min_spec ps b
    rw [h] at hm hle hall
    refine ⟨?_, ?_⟩
    · rcases hm with hm | hm
      · simp [hm]
      · exact List.mem_cons_of_mem _ hm
    · intro q hq
      rcases List.mem_cons.mp hq with rfl | hq
      · exact hle
      · exact hall q hq

theorem evict_spec {α : Type} (s : CacheManager.State α)
    (hal : s.cache.map Prod.fst = s.access_times.map Prod.fst)
    (hne : s.access_times ≠ []) :
    ∃ p, CacheManager.minByTime s.access_times = some p ∧
      p ∈ s.access_times ∧ (∀ q ∈ s.access_times, p.2 ≤ q.2) ∧
      CacheManager._evict_least_recently_used s =
        CacheManager._remove_item s p.1 ∧
      (CacheManager._evict_least_recently_used s).cache.length
        < s.cache.length := by
  cases hmin : CacheManager.minByTime s.access_times with
  | none =>
    exfalso
    apply hne
    cases hl : s.access_times with
    | nil => rfl
    | cons b ps =>
      rw [hl] at hmin
      simp [CacheManager.minByTime] at hmin
  | some p =>
    obtain ⟨hmem, hall⟩ := minByTime_spec _ _ hmin
    have hkey : p.1 ∈ s.cache.map Prod.fst := by
      rw [hal]
      exact List.mem_map.mpr ⟨p, hmem, rfl⟩
    refine ⟨p, rfl, hmem, hall, ?_, ?_⟩
    · unfold CacheManager._evict_least_recently_used
      rw [hmin]
    · unfold CacheManager._evict_least_recently_used
      rw [hmin]
      exact length_filter_ne_lt _ _ hkey

theorem updAssoc_append {β : Type} (l : List (String × β)) (k : String)
    (v : β) (h : l.lookup k = none) : updAssoc l k v = l ++ [(k, v)] := by
  unfold updAssoc
  rw [h]
  simp

theorem remove_item_aligned {α : Type} (s : CacheManager.State α)
    (fk : String)
    (hal : s.cache.map Prod.fst = s.access_times.map Prod.fst) :
    (CacheManager._remove_item s fk).cache.map Prod.fst =
      (CacheManager._remove_item s fk).access_times.map Prod.fst := by
  simp only [CacheManager._remove_item]
  rw [map_fst_filter_ne, map_fst_filter_ne, hal]

theorem evict_max {α : Type} (s : CacheManager.State α) :
    (CacheManager._evict_least_recently_used s).max_size = s.max_size := by
  unfold CacheManager._evict_least_recently_used
  cases CacheManager.minByTime s.access_times with
  | none => rfl
  | some p => rfl

theorem aligned_lengths {α : Type} (s : CacheManager.State α)
    (hal : s.cache.map Prod.fst = s.access_times.map Prod.fst) :
    s.cache.length = s.access_times.length := by
  have h := congrArg List.length hal
  simpa using h

/-- The shape of `CacheManager.set`: on a well-formed state it appends a
fresh entry to a prepared state `s2` whose key lists are still aligned,
which no longer contains the key, and which has room for the new
entry. -/
theorem set_cache_shape {α : Type} (s : CacheManager.State α) (now : ℚ)
    (k : String) (v : α) (cat : String) (ttl : Option ℚ)
    (hmax : 1 ≤ s.max_size)
    (hal : s.cache.map Prod.fst = s.access_times.map Prod.fst)
    (hsz : s.cache.length ≤ s.max_size) :
    ∃ s2 : CacheManager.State α,
      (CacheManager.set s now k v cat ttl).cache = s2.cache ++
        [(CacheManager.full_key cat k,
          ⟨v, now, CacheManager.resolveTtl ttl s.default_ttl, cat⟩)] ∧
      (CacheManager.set s now k v cat ttl).access_times =
        updAssoc s2.access_times (CacheManager.full_key cat k) now ∧
      (CacheManager.set s now k v cat ttl).max_size = s.max_size ∧
      s2.cache.map Prod.fst = s2.access_times.map Prod.fst ∧
      s2.cache.lookup (CacheManager.full_key cat k) = none ∧
      s2.cache.length + 1 ≤ s.max_size := by
  set fk := CacheManager.full_key cat k with hfk
  set s1 := (if (s.cache.lookup fk).isSome
      then CacheManager._remove_item s fk else s) with hs1
  have h1al : s1.cache.map Prod.fst = s1.access_times.map Prod.fst := by
    rw [hs1]
    by_cases hx : (s.cache.lookup fk).isSome
    · rw [if_pos hx]
      exact remove_item_aligned s fk hal
    · rw [if_neg hx]
      exact hal
  have h1sz : s1.cache.length ≤ s.cache.length := by
    rw [hs1]
    by_cases hx : (s.cache.lookup fk).isSome
    · rw [if_pos hx]
      exact List.length_filter_le _ _
    · rw [if_neg hx]
  have h1lk : s1.cache.lookup fk = none := by
    rw [hs1]
    by_cases hx : (s.cache.lookup fk).isSome
    · rw [if_pos hx]
      exact remove_item_lookup_self _ _
    · rw [if_neg hx]
      exact Option.not_isSome_iff_eq_none.mp hx
  have h1max : s1.max_size = s.max_size := by
    rw [hs1]
    by_cases hx : (s.cache.lookup fk).isSome
    · rw [if_pos hx]; rfl
    · rw [if_neg hx]
  set s2 := (if s1.max_size ≤ s1.cache.length
      then CacheManager._evict_least_recently_used s1 else s1) with hs2
  have hstep : s2.cache.map Prod.fst = s2.access_times.map Prod.fst ∧
      s2.cache.lookup fk = none ∧ s2.cache.length + 1 ≤ s.max_size := by
    rw [hs2]
    by_cases hcap : s1.max_size ≤ s1.cache.length
    · rw [if_pos hcap]
      have hne : s1.access_times ≠ [] := by
        intro hemp
        have hlen := aligned_lengths s1 h1al
        rw [hemp, List.length_nil] at hlen
        rw [hlen, h1max] at hcap
        omega
      obtain ⟨p, _, _, _, hev, hlt⟩ := evict_spec s1 h1al hne
      rw [hev]
      refine ⟨remove_item_aligned s1 p.1 h1al, ?_, ?_⟩
      · exact remove_item_lookup_of_none s1 fk p.1 h1lk
      · rw [hev] at hlt
        have : s1.cache.length ≤ s.max_size := le_trans h1sz hsz
        simp only [CacheManager._remove_item] at hlt ⊢
        omega
    · rw [if_neg hcap]
      rw [h1max] at hcap
      exact ⟨h1al, h1lk, by omega⟩
  have h2max : s2.max_size = s.max_size := by
    rw [hs2]
    by_cases hcap : s1.max_size ≤ s1.cache.length
    · rw [if_pos hcap]
      rw [evict_max]
      exact h1max
    · rw [if_neg hcap]
      exact h1max
  exact ⟨s2, rfl, rfl, h2max, hstep.1, hstep.2.1, hstep.2.2⟩

theorem set_preserves_inv {α : Type} (s : CacheManager.State α) (now : ℚ)
    (k : String) (v : α) (cat : String) (ttl : Option ℚ)
    (hmax : 1 ≤ s.max_size)
    (hal : s.cache.map Prod.fst = s.access_times.map Prod.fst)
    (hsz : s.cache.length ≤ s.max_size) :
    ((CacheManager.set s now k v cat ttl).cache.map Prod.fst =
      (CacheManager.set s now k v cat ttl).access_times.map Prod.fst) ∧
    (CacheManager.set s now k v cat ttl).cache.length ≤ s.max_size ∧
    (CacheManager.set s now k v cat ttl).max_size = s.max_size := by
  obtain ⟨s2, hc, ha, hm, h2al, h2lk, h2len⟩ :=
    set_cache_shape s now k v cat ttl hmax hal hsz
  have hacc : s2.access_times.lookup (CacheManager.full_key cat k) = none := by
    rw [lookup_eq_none_iff]
    rw [← h2al]
    rw [← lookup_eq_none_iff]
    exact h2lk
  refine ⟨?_, ?_, hm⟩
  · rw [hc, ha, updAssoc_append _ _ _ hacc]
    simp [h2al]
  · rw [hc]
    simpa using h2len

theorem applySets_inv {α : Type} (ops : List (CacheManager.SetOp α))
    (s : CacheManager.State α) (hmax : 1 ≤ s.max_size)
    (hal : s.cache.map Prod.fst = s.access_times.map Prod.fst)
    (hsz : s.cache.length ≤ s.max_size) :
    (CacheManager.applySets s ops).cache.length ≤ s.max_size := by
  induction ops generalizing s with
  | nil => exact hsz
  | cons op ops ih =>
    obtain ⟨h1, h2, h3⟩ := set_preserves_inv s op.now op.key op.data
      op.category op.ttl hmax hal hsz
    have hstep : CacheManager.applySets s (op :: ops) =
        CacheManager.applySets
          (CacheManager.set s op.now op.key op.data op.category op.ttl)
          ops := rfl
    rw [hstep]
    have := ih (CacheManager.set s op.now op.key op.data op.category op.ttl)
      (by rw [h3]; exact hmax) h1 (by rw [h3]; exact h2)
    rw [h3] at this
    exact this

theorem get_hit {α : Type} (s : CacheManager.State α) (now : ℚ)
    (k cat : String) (item : CacheManager.Item α)
    (hlk : s.cache.lookup (CacheManager.full_key cat k) = some item)
    (hc : now - item.timestamp < item.ttl) :
    CacheManager.get s now k cat = (some item.data,
      { s with
        access_times :=
          updAssoc s.access_times (CacheManager.full_key cat k) now,
        hit_count := s.hit_count + 1 }) := by
  unfold CacheManager.get
  simp only [hlk]
  rw [if_pos hc]

theorem get_expired {α : Type} (s : CacheManager.State α) (now : ℚ)
    (k cat : String) (item : CacheManager.Item α)
    (hlk : s.cache.lookup (CacheManager.full_key cat k) = some item)
    (hc : ¬now - item.timestamp < item.ttl) :
    CacheManager.get s now k cat = (none,
      { CacheManager._remove_item s (CacheManager.full_key cat k) with
        miss_count := (CacheManager._remove_item s
          (CacheManager.full_key cat k)).miss_count + 1 }) := by
  unfold CacheManager.get
  simp only [hlk]
  rw [if_neg hc]

/-- C6: (1) starting from a fresh cache with `max_size ≥ 1` (every cache
the program constructs has `max_size` 1000 or 2000), no sequence of
`set` calls ever pushes the entry count above `max_size`; (2) on a state
whose entry map and access-time map hold the same keys, the evicted
entry is one whose access timestamp is minimal among all current
entries (`min` over the access-time map); (3) `set` stamps the written
key's access time to the call time; (4) a `get` hit stamps the key's
access time to the call time. -/
theorem cache_eviction_bound :
    (∀ (α : Type) (maxSize : ℕ) (dttl : ℚ)
       (ops : List (CacheManager.SetOp α)), 1 ≤ maxSize →
      (CacheManager.applySets (CacheManager.State.empty α maxSize dttl)
        ops).cache.length ≤ maxSize) ∧
    (∀ (α : Type) (s : CacheManager.State α),
      s.cache.map Prod.fst = s.access_times.map Prod.fst →
      s.access_times ≠ [] →
      ∃ p, CacheManager.minByTime s.access_times = some p ∧
        p ∈ s.access_times ∧ (∀ q ∈ s.access_times, p.2 ≤ q.2) ∧
        CacheManager._evict_least_recently_used s =
          CacheManager._remove_item s p.1) ∧
    (∀ (α : Type) (s : CacheManager.State α) (now : ℚ) (k cat : String)
       (v : α) (ttl : Option ℚ),
      (CacheManager.set s now k v cat ttl).access_times.lookup
        (CacheManager.full_key cat k) = some now) ∧
    (∀ (α : Type) (s : CacheManager.State α) (now : ℚ) (k cat : String)
       (r : α) (s' : CacheManager.State α),
      CacheManager.get s now k cat = (some r, s') →
      s'.access_times.lookup (CacheManager.full_key cat k) = some now) := by
  refine ⟨?_, ?_, ?_, ?_⟩
  · intro α maxSize dttl ops hmax
    exact applySets_inv ops (CacheManager.State.empty α maxSize dttl) hmax
      rfl (Nat.zero_le _)
  · intro α s hal hne
    obtain ⟨p, h1, h2, h3, h4, _⟩ := evict_spec s hal hne
    exact ⟨p, h1, h2, h3, h4⟩
  · intro α s now k cat v ttl
    exact lookup_updAssoc _ _ _
  · intro α s now k cat r s' h
    cases hlk : s.cache.lookup (CacheManager.full_key cat k) with
    | none =>
      rw [get_miss s now k cat hlk] at h
      simp at h
    | some item =>
      by_cases hc : now - item.timestamp < item.ttl
      · rw [get_hit s now k cat item hlk hc] at h
        have h2 := congrArg Prod.snd h
        simp only at h2
        rw [← h2]
        exact lookup_updAssoc _ _ _
      · rw [get_expired s now k cat item hlk hc] at h
        simp at h

/-- Witness for `cache_eviction_bound` at concrete inputs. -/
theorem cache_eviction_bound_witness :
    ((CacheManager.applySets (CacheManager.State.empty ℕ 1 300)
      [⟨0, "x", 7, "default", none⟩,
       ⟨1, "y", 8, "default", none⟩]).cache.length ≤ 1) ∧
    (∃ p, CacheManager.minByTime
        [("default:x", (5:ℚ)), ("default:y", (3:ℚ))] = some p ∧
      p ∈ [("default:x", (5:ℚ)), ("default:y", (3:ℚ))] ∧
      (∀ q ∈ [("default:x", (5:ℚ)), ("default:y", (3:ℚ))], p.2 ≤ q.2) ∧
      CacheManager._evict_least_recently_used
          ⟨10, 300, [("default:x", ⟨7, 0, 300, "default"⟩),
            ("default:y", ⟨8, 0, 300, "default"⟩)],
            [("default:x", 5), ("default:y", 3)], 0, 0⟩ =
        CacheManager._remove_item
          ⟨10, 300, [("default:x", ⟨7, 0, 300, "default"⟩),
            ("default:y", ⟨8, 0, 300, "default"⟩)],
            [("default:x", 5), ("default:y", 3)], 0, 0⟩ p.1) ∧
    ((CacheManager.set (CacheManager.State.empty ℕ 1000 300) 2 "x" 7
        "default" none).access_times.lookup
        (CacheManager.full_key "default" "x") = some 2) ∧
    ((updAssoc [("default:x", (0:ℚ))] (CacheManager.full_key "default" "x")
        1).lookup (CacheManager.full_key "default" "x") = some 1) := by
  refine ⟨cache_eviction_bound.1 ℕ 1 300 _ (by norm_num),
    cache_eviction_bound.2.1 ℕ
      ⟨10, 300, [("default:x", ⟨7, 0, 300, "default"⟩),
        ("default:y", ⟨8, 0, 300, "default"⟩)],
        [("default:x", 5), ("default:y", 3)], 0, 0⟩ rfl (by simp),
    cache_eviction_bound.2.2.1 ℕ _ 2 "x" "default" 7 none, ?_⟩
  exact cache_eviction_bound.2.2.2 ℕ
    ⟨10, 300, [("default:x", ⟨7, 0, 300, "default"⟩)], [("default:x", 0)],
      0, 0⟩ 1 "x" "default" 7
    { (⟨10, 300, [("default:x", ⟨7, 0, 300, "default"⟩)],
        [("default:x", 0)], 0, 0⟩ : CacheManager.State ℕ) with
      access_times :=
        updAssoc [("default:x", (0:ℚ))] (CacheManager.full_key "default" "x")
          1,
      hit_count := 1 }
    (get_hit ⟨10, 300, [("default:x", ⟨7, 0, 300, "default"⟩)],
        [("default:x", 0)], 0, 0⟩ 1 "x" "default" ⟨7, 0, 300, "default"⟩
      (by decide) (by norm_num))
